import Mathlib

/-!
The ZeroTier socket API header `include/libzt.h`.

A shallow embedding of the constants and records declared in `libzt.h`,
together with a state-machine model of the service lifecycle, the network
membership table and the virtual socket table whose entry points the header
declares.
-/

namespace ZeroTier

/-! ## Control API error codes (`libzt.h`, lines 96-103) -/

/-- Everything is ok. -/
def ZTS_ERR_OK : Int := 0
/-- A parameter provided by the user application is invalid. -/
def ZTS_ERR_INVALID_ARG : Int := -1
/-- The service is not initialized or is for some other reason unavailable. -/
def ZTS_ERR_SERVICE : Int := -2
/-- For some reason this API operation is not permitted. -/
def ZTS_ERR_INVALID_OP : Int := -3

/-- The four `#define ZTS_ERR_*` lines of the section "Control API error codes",
in the order of the header. -/
def controlApiErrorCodes : List Int :=
  [ZTS_ERR_OK, ZTS_ERR_INVALID_ARG, ZTS_ERR_SERVICE, ZTS_ERR_INVALID_OP]

/-! ## Control API event codes (`libzt.h`, lines 105-144) -/

def ZTS_EVENT_NONE : Int := -1
def ZTS_EVENT_NODE_UP : Int := 0
def ZTS_EVENT_NODE_OFFLINE : Int := 1
def ZTS_EVENT_NODE_ONLINE : Int := 2
def ZTS_EVENT_NODE_DOWN : Int := 3
def ZTS_EVENT_NODE_IDENTITY_COLLISION : Int := 4
def ZTS_EVENT_NODE_UNRECOVERABLE_ERROR : Int := 16
def ZTS_EVENT_NODE_NORMAL_TERMINATION : Int := 17
def ZTS_EVENT_NETWORK_NOT_FOUND : Int := 32
def ZTS_EVENT_NETWORK_CLIENT_TOO_OLD : Int := 33
def ZTS_EVENT_NETWORK_REQUESTING_CONFIG : Int := 34
def ZTS_EVENT_NETWORK_OK : Int := 35
def ZTS_EVENT_NETWORK_ACCESS_DENIED : Int := 36
def ZTS_EVENT_NETWORK_READY_IP4 : Int := 37
def ZTS_EVENT_NETWORK_READY_IP6 : Int := 38
def ZTS_EVENT_NETWORK_DOWN : Int := 39
def ZTS_EVENT_NETWORK_STACK_UP : Int := 48
def ZTS_EVENT_NETWORK_STACK_DOWN : Int := 49
def ZTS_EVENT_NETIF_UP_IP4 : Int := 64
def ZTS_EVENT_NETIF_UP_IP6 : Int := 65
def ZTS_EVENT_NETIF_DOWN_IP4 : Int := 66
def ZTS_EVENT_NETIF_DOWN_IP6 : Int := 67
def ZTS_EVENT_NETIF_REMOVED : Int := 68
def ZTS_EVENT_NETIF_LINK_UP : Int := 69
def ZTS_EVENT_NETIF_LINK_DOWN : Int := 70
def ZTS_EVENT_NETIF_NEW_ADDRESS : Int := 71
def ZTS_EVENT_PEER_P2P : Int := 96
def ZTS_EVENT_PEER_RELAY : Int := 97
def ZTS_EVENT_PEER_UNREACHABLE : Int := 98

/-- The event codes other than `ZTS_EVENT_NONE`, in the order of the header. -/
def eventCodes : List Int :=
  [ ZTS_EVENT_NODE_UP, ZTS_EVENT_NODE_OFFLINE, ZTS_EVENT_NODE_ONLINE,
    ZTS_EVENT_NODE_DOWN, ZTS_EVENT_NODE_IDENTITY_COLLISION,
    ZTS_EVENT_NODE_UNRECOVERABLE_ERROR, ZTS_EVENT_NODE_NORMAL_TERMINATION,
    ZTS_EVENT_NETWORK_NOT_FOUND, ZTS_EVENT_NETWORK_CLIENT_TOO_OLD,
    ZTS_EVENT_NETWORK_REQUESTING_CONFIG, ZTS_EVENT_NETWORK_OK,
    ZTS_EVENT_NETWORK_ACCESS_DENIED, ZTS_EVENT_NETWORK_READY_IP4,
    ZTS_EVENT_NETWORK_READY_IP6, ZTS_EVENT_NETWORK_DOWN,
    ZTS_EVENT_NETWORK_STACK_UP, ZTS_EVENT_NETWORK_STACK_DOWN,
    ZTS_EVENT_NETIF_UP_IP4, ZTS_EVENT_NETIF_UP_IP6, ZTS_EVENT_NETIF_DOWN_IP4,
    ZTS_EVENT_NETIF_DOWN_IP6, ZTS_EVENT_NETIF_REMOVED, ZTS_EVENT_NETIF_LINK_UP,
    ZTS_EVENT_NETIF_LINK_DOWN, ZTS_EVENT_NETIF_NEW_ADDRESS,
    ZTS_EVENT_PEER_P2P, ZTS_EVENT_PEER_RELAY, ZTS_EVENT_PEER_UNREACHABLE ]

/-! ## Subset of `ZeroTierOne.h` (`libzt.h`, lines 394-479) -/

/-- Maximum address assignments per network. -/
def ZTS_MAX_ASSIGNED_ADDRESSES : Nat := 16
/-- Maximum routes per network. -/
def ZTS_MAX_NETWORK_ROUTES : Nat := 32

/-! ## Socket, fcntl and shutdown constants (`libzt.h`, lines 157-191) -/

def ZTS_SOCK_STREAM : Int := 0x0001
def ZTS_SOCK_DGRAM : Int := 0x0002
def ZTS_SOCK_RAW : Int := 0x0003
def ZTS_AF_UNSPEC : Int := 0x0000
def ZTS_AF_INET : Int := 0x0002
def ZTS_AF_INET6 : Int := 0x000a
def ZTS_F_GETFL : Int := 0x0003
def ZTS_F_SETFL : Int := 0x0004
def ZTS_O_NONBLOCK : Int := 0x0001
def ZTS_SHUT_RD : Int := 0x0000
def ZTS_SHUT_WR : Int := 0x0001
def ZTS_SHUT_RDWR : Int := 0x0002

/-! ## Results of the control API

`zts_err_t` is `int`: a call such as `zts_socket` or
`zts_get_num_joined_networks` returns either a handle or a count, or one of
the `ZTS_ERR_*` codes. -/

/-- The three failure codes of the control API. -/
inductive ControlError where
  | invalidArg
  | service
  | invalidOp
  deriving DecidableEq, Repr

/-- The `#define` of each failure code. -/
def ControlError.code : ControlError → Int
  | .invalidArg => ZTS_ERR_INVALID_ARG
  | .service => ZTS_ERR_SERVICE
  | .invalidOp => ZTS_ERR_INVALID_OP

/-- What a call of type `zts_err_t` hands back: a handle or a count, or an
error. -/
inductive CallResult where
  | value (n : Nat)
  | error (e : ControlError)
  deriving DecidableEq, Repr

/-- The `int` that the caller sees. -/
def CallResult.toInt : CallResult → Int
  | .value n => (n : Int)
  | .error e => e.code

/-- Whether the call failed. -/
def CallResult.isError : CallResult → Bool
  | .value _ => false
  | .error _ => true

/-! ## Address and route records

`struct sockaddr_storage` comes from the platform headers; only its family
field and its payload matter here. -/

/-- Modelled from the spec: an address record (`struct sockaddr_storage` of the
platform headers, which `libzt.h` uses but does not declare): the address
family and the raw address bytes. -/
structure sockaddr_storage where
  ss_family : Int
  data : List Nat
  deriving DecidableEq, Repr

/-- The all-zero address record (an unused slot of an array). -/
def sockaddr_storage.zero : sockaddr_storage := { ss_family := 0, data := [] }

/-- A structure used to represent a virtual network route
(`struct zts_virtual_network_route`). -/
structure zts_virtual_network_route where
  target : sockaddr_storage
  via : sockaddr_storage
  flags : Nat
  metric : Nat
  deriving DecidableEq, Repr

/-- The all-zero route (an unused slot of an array). -/
def zts_virtual_network_route.zero : zts_virtual_network_route :=
  { target := sockaddr_storage.zero, via := sockaddr_storage.zero, flags := 0, metric := 0 }

/-- A structure used to convey network-specific details to the user
application (`struct zts_network_details`): `addr` is an array of
`ZTS_MAX_ASSIGNED_ADDRESSES` slots, `routes` an array of
`ZTS_MAX_NETWORK_ROUTES` slots; `num_addresses` is a `short`, `num_routes` an
`unsigned int`. -/
structure zts_network_details where
  nwid : Nat
  mtu : Int
  num_addresses : Int
  addr : Fin ZTS_MAX_ASSIGNED_ADDRESSES → sockaddr_storage
  num_routes : Nat
  routes : Fin ZTS_MAX_NETWORK_ROUTES → zts_virtual_network_route

/-! ## Data model of the service -/

/-- Modelled from the spec: the error taxonomy of section 7, the kinds that
are reported as a return value (the implementation file that produces them is
not part of the header). -/
inductive ErrorKind where
  | InvalidArgument
  | ServiceUnavailable
  | InvalidOperation
  | WouldBlock
  | Timeout
  deriving DecidableEq, Repr, Fintype

/-- The control API failure of a kind, for the kinds the header gives a
`ZTS_ERR_*` code to. -/
def ErrorKind.control? : ErrorKind → Option ControlError
  | .InvalidArgument => some .invalidArg
  | .ServiceUnavailable => some .service
  | .InvalidOperation => some .invalidOp
  | .WouldBlock => none
  | .Timeout => none

/-- The `ZTS_ERR_*` code of a kind, when the header defines one. -/
def ErrorKind.code? (k : ErrorKind) : Option Int :=
  k.control?.map ControlError.code

/-- Modelled from the spec: what a call reports, a non-negative return value
or a failure of one of the kinds of the taxonomy. -/
inductive Outcome where
  | value (n : Nat)
  | fail (k : ErrorKind)
  deriving DecidableEq, Repr

/-- Modelled from the spec: ServiceState of section 3. -/
inductive ServiceState where
  | Uninitialized
  | Starting
  | Running
  | Stopping
  | Stopped
  | Freed
  deriving DecidableEq, Repr

/-- Modelled from the spec: the state of a VirtualSocket (section 3). -/
inductive SocketState where
  | Created
  | Bound
  | Listening
  | Connecting
  | Connected
  | Closing
  | Closed
  deriving DecidableEq, Repr

/-- Modelled from the spec: NetworkRecord of section 3. -/
structure NetworkRecord where
  networkId : Nat
  joinedAt : Nat
  ready : Bool
  addresses : List sockaddr_storage
  routes : List zts_virtual_network_route
  mtu : Int
  deriving DecidableEq, Repr

/-- Modelled from the spec: VirtualSocket of section 3. The backlog queue
holds the remote addresses of the pending inbound connections; the option
table is keyed by (level, optname). -/
structure VirtualSocket where
  handle : Nat
  family : Int
  type : Int
  protocol : Int
  state : SocketState
  boundLocalAddress : Option sockaddr_storage
  remoteAddress : Option sockaddr_storage
  backlog : List sockaddr_storage
  backlogCapacity : Nat
  nonBlocking : Bool
  options : List ((Int × Int) × Int)
  deriving DecidableEq, Repr

/-- Modelled from the spec: the process-wide context object of section 9,
holding the service state, the network membership table and the virtual
socket table. -/
structure Service where
  state : ServiceState
  networks : List NetworkRecord
  sockets : List VirtualSocket
  deriving DecidableEq, Repr

/-- The service before the first call. -/
def Service.init : Service :=
  { state := ServiceState.Uninitialized, networks := [], sockets := [] }

/-! ## Service Lifecycle Controller -/

/-- Modelled from the spec: the gate declared in the header as
`int _zts_can_perform_service_operation()` ("determine if it is currently safe
and allowed to operate on the service"); section 3 fixes it as
state == Running. Its body is not part of the header. -/
def _zts_can_perform_service_operation (s : Service) : Bool :=
  decide (s.state = ServiceState.Running)

/-- Modelled from the spec: `isRunning()` of section 4.1 (declared as
`zts_core_running`), a snapshot read of state == Running; 1 if running, 0 if
not. -/
def zts_core_running (s : Service) : Outcome × Service :=
  (Outcome.value (if s.state = ServiceState.Running then 1 else 0), s)

/-- Modelled from the spec: `start(path, callback, port)` of section 4.1
(declared as `zts_start`). `startupOk` is what the overlay core and the
embedded stack report before the startup deadline. The header documents the
return value "0 if successful; or 1 if failed". -/
def zts_start (startupOk : Bool) (s : Service) : Outcome × Service :=
  if s.state = ServiceState.Uninitialized ∨ s.state = ServiceState.Stopped then
    let starting : Service := { s with state := ServiceState.Starting }
    if startupOk then
      (Outcome.value 0, { starting with state := ServiceState.Running })
    else
      (Outcome.value 1, { starting with state := ServiceState.Stopped })
  else
    (Outcome.fail ErrorKind.InvalidOperation, s)

/-- Modelled from the spec: `stop()` of section 4.1 (declared as `zts_stop`):
Running goes through Stopping to Stopped; idempotent when already Stopped. -/
def zts_stop (s : Service) : Outcome × Service :=
  if s.state = ServiceState.Running then
    let stopping : Service := { s with state := ServiceState.Stopping }
    (Outcome.value 0, { stopping with state := ServiceState.Stopped })
  else if s.state = ServiceState.Stopped then
    (Outcome.value 0, s)
  else
    (Outcome.fail ErrorKind.InvalidOperation, s)

/-- Modelled from the spec: `free()` of section 4.1 (declared as `zts_free`):
only valid after stop(); closes every VirtualSocket, releases the
NetworkRecord table and transitions to Freed. -/
def zts_free (s : Service) : Outcome × Service :=
  if s.state = ServiceState.Stopped then
    (Outcome.value 0, { state := ServiceState.Freed, networks := [], sockets := [] })
  else
    (Outcome.fail ErrorKind.InvalidOperation, s)

/-! ## Network Membership Table -/

/-- Modelled from the spec: the lookup of a NetworkRecord by networkId, the
unique key of the table (section 3). -/
def findNetwork (nwid : Nat) (ns : List NetworkRecord) : Option NetworkRecord :=
  ns.find? (fun r => decide (r.networkId = nwid))

/-- Modelled from the spec: the NetworkRecord a successful join creates; the
addresses, the routes and the readiness are signalled later (section 4.2). -/
def NetworkRecord.fresh (nwid now : Nat) : NetworkRecord :=
  { networkId := nwid, joinedAt := now, ready := false, addresses := [], routes := [], mtu := 0 }

/-- Modelled from the spec: `join(networkId)` of section 4.2 (declared as
`zts_join`): valid only when Running; a duplicate join of an already-joined id
is a no-op success; otherwise the record is created. `now` is the time of the
call. -/
def zts_join (nwid now : Nat) (s : Service) : Outcome × Service :=
  if _zts_can_perform_service_operation s then
    match findNetwork nwid s.networks with
    | some _ => (Outcome.value 0, s)
    | none => (Outcome.value 0, { s with networks := s.networks ++ [NetworkRecord.fresh nwid now] })
  else
    (Outcome.fail ErrorKind.ServiceUnavailable, s)

/-- Modelled from the spec: `leave(networkId)` of section 4.2 (declared as
`zts_leave`): valid only when Running; fails with InvalidArgument on an unknown
id; otherwise the record is removed. -/
def zts_leave (nwid : Nat) (s : Service) : Outcome × Service :=
  if _zts_can_perform_service_operation s then
    match findNetwork nwid s.networks with
    | some _ =>
      (Outcome.value 0, { s with networks := s.networks.filter (fun r => decide (r.networkId ≠ nwid)) })
    | none => (Outcome.fail ErrorKind.InvalidArgument, s)
  else
    (Outcome.fail ErrorKind.ServiceUnavailable, s)

/-- Modelled from the spec: `leaveAll()` of section 4.2 (declared as
`zts_leave_all`): best-effort leave of every entry; `refused` tells the
networks the overlay core fails to leave, which stay in the table, and the
partial failure is reported ("-1 for any failure" in the header). -/
def zts_leave_all (refused : Nat → Bool) (s : Service) : Outcome × Service :=
  if _zts_can_perform_service_operation s then
    let kept := s.networks.filter (fun r => refused r.networkId)
    (if kept.isEmpty then Outcome.value 0 else Outcome.fail ErrorKind.InvalidArgument,
     { s with networks := kept })
  else
    (Outcome.fail ErrorKind.ServiceUnavailable, s)

/-- Modelled from the spec: the body of `zts_get_network_details`, which is
not part of the header. A NetworkRecord is copied into the structure handed
to the application: the counts are the lengths of the two sequences, slot `i`
of each array holds entry `i` of the sequence (an all-zero record where there
is none). -/
def NetworkRecord.details (r : NetworkRecord) : zts_network_details :=
  { nwid := r.networkId
    mtu := r.mtu
    num_addresses := (r.addresses.length : Int)
    addr := fun i => r.addresses.getD i.val sockaddr_storage.zero
    num_routes := r.routes.length
    routes := fun i => r.routes.getD i.val zts_virtual_network_route.zero }

/-- Modelled from the spec: `getNetworkDetails(networkId)` of section 4.2
(declared as `zts_get_network_details`): fails with Service-unavailable if not
Running, with InvalidArgument if not joined. -/
def zts_get_network_details (nwid : Nat) (s : Service) :
    (Outcome × Option zts_network_details) × Service :=
  if _zts_can_perform_service_operation s then
    match findNetwork nwid s.networks with
    | some r => ((Outcome.value 0, some r.details), s)
    | none => ((Outcome.fail ErrorKind.InvalidArgument, none), s)
  else
    ((Outcome.fail ErrorKind.ServiceUnavailable, none), s)

/-- Modelled from the spec: the scan behind `getAddress` (section 4.2, "first
matching-family address in insertion order"): walk the address sequence from
index `i` on and stop at the first record of the wanted family. -/
def firstOfFamily (family : Int) : List sockaddr_storage → Nat → Option (Nat × sockaddr_storage)
  | [], _ => none
  | a :: rest, i => if a.ss_family = family then some (i, a) else firstOfFamily family rest (i + 1)

/-- Modelled from the spec: `getAddress(networkId, family)` of section 4.2
(declared as `zts_get_address`, "0 if an address was successfully found, -1 if
failure", "Only returns first address found"): the first matching-family
address in insertion order. -/
def zts_get_address (nwid : Nat) (family : Int) (s : Service) :
    (Outcome × Option sockaddr_storage) × Service :=
  if _zts_can_perform_service_operation s then
    match findNetwork nwid s.networks with
    | some r =>
      match firstOfFamily family r.addresses 0 with
      | some found => ((Outcome.value 0, some found.2), s)
      | none => ((Outcome.fail ErrorKind.InvalidArgument, none), s)
    | none => ((Outcome.fail ErrorKind.InvalidArgument, none), s)
  else
    ((Outcome.fail ErrorKind.ServiceUnavailable, none), s)

/-- Modelled from the spec: `orbit(moonWorldId, moonSeed)` of section 4.2
(declared as `zts_orbit`): same Running precondition; the membership is
managed by the overlay core, whose answer is `core`. -/
def zts_orbit (_moonWorldId _moonSeed : Nat) (core : Outcome) (s : Service) : Outcome × Service :=
  if _zts_can_perform_service_operation s then (core, s)
  else (Outcome.fail ErrorKind.ServiceUnavailable, s)

/-- Modelled from the spec: `deorbit(moonWorldId)` of section 4.2 (declared
as `zts_deorbit`). -/
def zts_deorbit (_moonWorldId : Nat) (core : Outcome) (s : Service) : Outcome × Service :=
  if _zts_can_perform_service_operation s then (core, s)
  else (Outcome.fail ErrorKind.ServiceUnavailable, s)

/-! ## Virtual Socket Table -/

/-- The handles of the table, slot by slot. -/
def handles (ss : List VirtualSocket) : List Nat := ss.map (fun v => v.handle)

/-- Modelled from the spec: an entry that `close` has marked Closing (or
Closed) is no longer open; its slot only waits for the stack to confirm the
teardown. -/
def VirtualSocket.isOpen (v : VirtualSocket) : Bool :=
  decide (v.state ≠ SocketState.Closing ∧ v.state ≠ SocketState.Closed)

/-- Modelled from the spec: the open VirtualSocket the application integer
`fd` stands for, if there is one. -/
def findOpen (fd : Int) (ss : List VirtualSocket) : Option VirtualSocket :=
  ss.find? (fun v => decide ((v.handle : Int) = fd) && v.isOpen)

/-- Modelled from the spec: an operation on a handle rewrites the entries of
that handle with `f`; the handle itself is kept. -/
def updateSocket (h : Nat) (f : VirtualSocket → VirtualSocket) (ss : List VirtualSocket) :
    List VirtualSocket :=
  ss.map (fun v => if v.handle = h then { f v with handle := v.handle } else v)

/-- Modelled from the spec: the search of a free handle slot, the smallest
candidate from `c` on that is not in `used`, trying at most `fuel` occupied
candidates. -/
def firstFree (used : List Nat) : Nat → Nat → Nat
  | 0, c => c
  | fuel + 1, c => if c ∈ used then firstFree used fuel (c + 1) else c

/-- Modelled from the spec: the handle slot a new VirtualSocket gets, the
lowest slot that no entry of the table occupies; a slot whose entry is still
Closing is occupied. -/
def freshHandle (ss : List VirtualSocket) : Nat :=
  firstFree (handles ss) (handles ss).length 0

/-- Modelled from the spec: the family/type combinations `socket` accepts
(the header documents AF_INET, AF_INET6 and SOCK_STREAM, SOCK_DGRAM,
SOCK_RAW). -/
def supportedSocket (family type _protocol : Int) : Bool :=
  decide ((family = ZTS_AF_INET ∨ family = ZTS_AF_INET6) ∧
    (type = ZTS_SOCK_STREAM ∨ type = ZTS_SOCK_DGRAM ∨ type = ZTS_SOCK_RAW))

/-- Modelled from the spec: a new VirtualSocket of the table in the given
state, blocking, with no bound address, an empty backlog and an empty option
table. -/
def VirtualSocket.create (h : Nat) (family type protocol : Int) (st : SocketState)
    (remote : Option sockaddr_storage) : VirtualSocket :=
  { handle := h, family := family, type := type, protocol := protocol, state := st
    boundLocalAddress := none, remoteAddress := remote, backlog := [], backlogCapacity := 0
    nonBlocking := false, options := [] }

/-- Modelled from the spec: `socket(family, type, protocol)` of section 4.3
(declared as `zts_socket`): allocates a new VirtualSocket in state Created;
InvalidArgument for unsupported combinations. -/
def zts_socket (family type protocol : Int) (s : Service) : Outcome × Service :=
  if _zts_can_perform_service_operation s then
    if supportedSocket family type protocol then
      let h := freshHandle s.sockets
      (Outcome.value h,
       { s with sockets := (s.sockets ++
           [VirtualSocket.create h family type protocol SocketState.Created none]) })
    else
      (Outcome.fail ErrorKind.InvalidArgument, s)
  else
    (Outcome.fail ErrorKind.ServiceUnavailable, s)

/-- Modelled from the spec: `bind` of section 4.3 (declared as `zts_bind`):
Created becomes Bound. -/
def zts_bind (fd : Int) (addr : sockaddr_storage) (s : Service) : Outcome × Service :=
  if _zts_can_perform_service_operation s then
    match findOpen fd s.sockets with
    | none => (Outcome.fail ErrorKind.InvalidArgument, s)
    | some v =>
      if v.state = SocketState.Created then
        (Outcome.value 0,
         { s with sockets := (updateSocket v.handle
             (fun w => { w with state := SocketState.Bound, boundLocalAddress := some addr })
             s.sockets) })
      else
        (Outcome.fail ErrorKind.InvalidOperation, s)
  else
    (Outcome.fail ErrorKind.ServiceUnavailable, s)

/-- Modelled from the spec: `listen` of section 4.3 (declared as
`zts_listen`): transitions to Listening and establishes the backlog queue of
bounded capacity. -/
def zts_listen (fd : Int) (backlog : Nat) (s : Service) : Outcome × Service :=
  if _zts_can_perform_service_operation s then
    match findOpen fd s.sockets with
    | none => (Outcome.fail ErrorKind.InvalidArgument, s)
    | some v =>
      if v.state = SocketState.Created ∨ v.state = SocketState.Bound then
        (Outcome.value 0,
         { s with sockets := (updateSocket v.handle
             (fun w => { w with state := SocketState.Listening, backlog := [],
                                backlogCapacity := backlog })
             s.sockets) })
      else
        (Outcome.fail ErrorKind.InvalidOperation, s)
  else
    (Outcome.fail ErrorKind.ServiceUnavailable, s)

/-- Modelled from the spec: `connect` of section 4.3 (declared as
`zts_connect`). On a blocking socket the call ends when the stack reports
Connected (`reached`) or an error or timeout, which moves the socket to
Closing; on a non-blocking socket it returns at once with the in-progress
indicator and the socket is Connecting. -/
def zts_connect (fd : Int) (addr : sockaddr_storage) (reached : Bool) (s : Service) :
    Outcome × Service :=
  if _zts_can_perform_service_operation s then
    match findOpen fd s.sockets with
    | none => (Outcome.fail ErrorKind.InvalidArgument, s)
    | some v =>
      if v.state = SocketState.Created ∨ v.state = SocketState.Bound then
        if v.nonBlocking then
          (Outcome.fail ErrorKind.WouldBlock,
           { s with sockets := (updateSocket v.handle
               (fun w => { w with state := SocketState.Connecting, remoteAddress := some addr })
               s.sockets) })
        else if reached then
          (Outcome.value 0,
           { s with sockets := (updateSocket v.handle
               (fun w => { w with state := SocketState.Connected, remoteAddress := some addr })
               s.sockets) })
        else
          (Outcome.fail ErrorKind.Timeout,
           { s with sockets := (updateSocket v.handle
               (fun w => { w with state := SocketState.Closing }) s.sockets) })
      else
        (Outcome.fail ErrorKind.InvalidOperation, s)
  else
    (Outcome.fail ErrorKind.ServiceUnavailable, s)

/-- Modelled from the spec: `accept` materialises a new VirtualSocket in
Connected state for the dequeued connection and hands its handle out; `rest` is what stays in the backlog of the listening socket. -/
def acceptInto (listener : VirtualSocket) (remote : sockaddr_storage)
    (rest : List sockaddr_storage) (s : Service) : Outcome × Service :=
  let h := freshHandle s.sockets
  (Outcome.value h,
   { s with sockets := (updateSocket listener.handle (fun w => { w with backlog := rest }) s.sockets ++
       [VirtualSocket.create h listener.family listener.type listener.protocol
          SocketState.Connected (some remote)]) })

/-- Modelled from the spec: `accept` of section 4.3 (declared as
`zts_accept`): InvalidOperation on a non-listening socket; dequeues the
backlog FIFO into a new Connected VirtualSocket; with an empty backlog a
non-blocking socket fails with would-block, a blocking one suspends until an
inbound connection enters the backlog (`arrival`) or its deadline elapses. -/
def zts_accept (fd : Int) (arrival : Option sockaddr_storage) (s : Service) : Outcome × Service :=
  if _zts_can_perform_service_operation s then
    match findOpen fd s.sockets with
    | none => (Outcome.fail ErrorKind.InvalidArgument, s)
    | some v =>
      if v.state = SocketState.Listening then
        match v.backlog with
        | remote :: rest => acceptInto v remote rest s
        | [] =>
          if v.nonBlocking then (Outcome.fail ErrorKind.WouldBlock, s)
          else
            match arrival with
            | some remote => acceptInto v remote [] s
            | none => (Outcome.fail ErrorKind.Timeout, s)
      else
        (Outcome.fail ErrorKind.InvalidOperation, s)
  else
    (Outcome.fail ErrorKind.ServiceUnavailable, s)

/-- The eight data-transfer entry points of the header. -/
inductive Transfer where
  | send
  | sendto
  | sendmsg
  | recv
  | recvfrom
  | recvmsg
  | read
  | write
  deriving DecidableEq, Repr

/-- Modelled from the spec: the send/recv family of section 4.3 (declared as
`zts_send`, `zts_sendto`, `zts_sendmsg`, `zts_recv`, `zts_recvfrom`,
`zts_recvmsg`, `zts_read`, `zts_write`): the transfer is done by the embedded
stack, whose answer (a count, would-block or timeout) is `stack`; the table
is not touched. -/
def zts_transfer (_which : Transfer) (fd : Int) (_flags : Int) (stack : Outcome) (s : Service) :
    Outcome × Service :=
  if _zts_can_perform_service_operation s then
    match findOpen fd s.sockets with
    | none => (Outcome.fail ErrorKind.InvalidArgument, s)
    | some _ => (stack, s)
  else
    (Outcome.fail ErrorKind.ServiceUnavailable, s)

/-- Modelled from the spec: the per-option table of a VirtualSocket keeps one
value per (level, optname). -/
def setOption (key : Int × Int) (value : Int) (opts : List ((Int × Int) × Int)) :
    List ((Int × Int) × Int) :=
  (key, value) :: opts.filter (fun e => decide (e.1 ≠ key))

/-- Modelled from the spec: `setsockopt` of section 4.3 (declared as
`zts_setsockopt`): mutates the per-option table; unsupported option codes
(`supported` is the platform's table of option codes) fail with
InvalidArgument. -/
def zts_setsockopt (fd level optname value : Int) (supported : Bool) (s : Service) :
    Outcome × Service :=
  if _zts_can_perform_service_operation s then
    match findOpen fd s.sockets with
    | none => (Outcome.fail ErrorKind.InvalidArgument, s)
    | some v =>
      if supported then
        (Outcome.value 0,
         { s with sockets := (updateSocket v.handle
             (fun w => { w with options := setOption (level, optname) value w.options })
             s.sockets) })
      else
        (Outcome.fail ErrorKind.InvalidArgument, s)
  else
    (Outcome.fail ErrorKind.ServiceUnavailable, s)

/-- Modelled from the spec: `getsockopt` of section 4.3 (declared as
`zts_getsockopt`): reads the per-option table (0 for an option never set). -/
def zts_getsockopt (fd level optname : Int) (supported : Bool) (s : Service) :
    (Outcome × Option Int) × Service :=
  if _zts_can_perform_service_operation s then
    match findOpen fd s.sockets with
    | none => ((Outcome.fail ErrorKind.InvalidArgument, none), s)
    | some v =>
      if supported then
        ((Outcome.value 0,
          some (((v.options.find? (fun e => decide (e.1 = (level, optname)))).map Prod.snd).getD 0)), s)
      else
        ((Outcome.fail ErrorKind.InvalidArgument, none), s)
  else
    ((Outcome.fail ErrorKind.ServiceUnavailable, none), s)

/-- Modelled from the spec: `fcntl` of section 4.3 (declared as `zts_fcntl`):
`ZTS_F_SETFL` stores the persistent non-blocking flag, `ZTS_F_GETFL` reads
it. -/
def zts_fcntl (fd cmd flags : Int) (s : Service) : Outcome × Service :=
  if _zts_can_perform_service_operation s then
    match findOpen fd s.sockets with
    | none => (Outcome.fail ErrorKind.InvalidArgument, s)
    | some v =>
      if cmd = ZTS_F_SETFL then
        (Outcome.value 0,
         { s with sockets := (updateSocket v.handle
             (fun w => { w with nonBlocking := decide (Int.land flags ZTS_O_NONBLOCK ≠ 0) })
             s.sockets) })
      else if cmd = ZTS_F_GETFL then
        (Outcome.value (if v.nonBlocking then 1 else 0), s)
      else
        (Outcome.fail ErrorKind.InvalidArgument, s)
  else
    (Outcome.fail ErrorKind.ServiceUnavailable, s)

/-- Modelled from the spec: `ioctl` of section 4.3 (declared as `zts_ioctl`):
dispatched to the embedded stack, whose answer is `stack`. -/
def zts_ioctl (fd : Int) (_request : Nat) (stack : Outcome) (s : Service) : Outcome × Service :=
  if _zts_can_perform_service_operation s then
    match findOpen fd s.sockets with
    | none => (Outcome.fail ErrorKind.InvalidArgument, s)
    | some _ => (stack, s)
  else
    (Outcome.fail ErrorKind.ServiceUnavailable, s)

/-- Modelled from the spec: `select` of section 4.3 (declared as
`zts_select`): the number of ready descriptors (or the failure) is what the
readiness signals of the stack give, `stack`. -/
def zts_select (stack : Outcome) (s : Service) : Outcome × Service :=
  if _zts_can_perform_service_operation s then (stack, s)
  else (Outcome.fail ErrorKind.ServiceUnavailable, s)

/-- Modelled from the spec: `shutdown(fd, how)` of section 4.3 (declared as
`zts_shutdown`): half-close, independent of full close; the entry stays in
the table. -/
def zts_shutdown (fd how : Int) (s : Service) : Outcome × Service :=
  if _zts_can_perform_service_operation s then
    match findOpen fd s.sockets with
    | none => (Outcome.fail ErrorKind.InvalidArgument, s)
    | some _ =>
      if how = ZTS_SHUT_RD ∨ how = ZTS_SHUT_WR ∨ how = ZTS_SHUT_RDWR then (Outcome.value 0, s)
      else (Outcome.fail ErrorKind.InvalidArgument, s)
  else
    (Outcome.fail ErrorKind.ServiceUnavailable, s)

/-- Modelled from the spec: `close(fd)` of section 4.3 (declared as
`zts_close`), the first phase of the two-phase close: the entry is marked
Closing and success is returned once teardown is queued; the slot stays
occupied. A handle that is not open (unknown, or closed before) is reported
as InvalidArgument. -/
def zts_close (fd : Int) (s : Service) : Outcome × Service :=
  if _zts_can_perform_service_operation s then
    match findOpen fd s.sockets with
    | none => (Outcome.fail ErrorKind.InvalidArgument, s)
    | some v =>
      (Outcome.value 0,
       { s with sockets := (updateSocket v.handle
           (fun w => { w with state := SocketState.Closing }) s.sockets) })
  else
    (Outcome.fail ErrorKind.ServiceUnavailable, s)

/-! ## Signals of the collaborators -/

/-- Modelled from the spec: an event of the overlay core rewrites the record
of network `nwid` with `f`; the id itself is kept. -/
def updateNetwork (nwid : Nat) (f : NetworkRecord → NetworkRecord) (ns : List NetworkRecord) :
    List NetworkRecord :=
  ns.map (fun r => if r.networkId = nwid then { f r with networkId := r.networkId } else r)

/-- Modelled from the spec: what the embedded stack and the overlay core
signal back (sections 3, 4.2 and 6): the confirmation that the connection
object of a closed handle is fully released, the address, route and ready
events of a network, an inbound connection for a listening socket, and the
outcome of a non-blocking connect. -/
inductive Signal where
  | teardownComplete (h : Nat)
  | addressAssigned (nwid : Nat) (a : sockaddr_storage)
  | routeAdded (nwid : Nat) (r : zts_virtual_network_route)
  | readiness (nwid : Nat) (ready : Bool) (mtu : Int)
  | inbound (h : Nat) (remote : sockaddr_storage)
  | connectResolved (h : Nat) (reached : Bool)
  deriving DecidableEq, Repr

/-- Modelled from the spec: the effect of a signal on the two tables. The
second phase of close releases the slot of a Closing entry; an address (a
route) is appended to the sequence of its network while the sequence holds
fewer than 16 (32) records; an inbound connection enters the backlog of a
Listening socket while the backlog is below its capacity. -/
def Signal.deliver : Signal → Service → Service
  | .teardownComplete h, s =>
    { s with sockets := (s.sockets.filter
        (fun v => !(decide (v.handle = h) && decide (v.state = SocketState.Closing)))) }
  | .addressAssigned nwid a, s =>
    { s with networks := (updateNetwork nwid
        (fun r => if r.addresses.length < ZTS_MAX_ASSIGNED_ADDRESSES
                  then { r with addresses := r.addresses ++ [a] } else r) s.networks) }
  | .routeAdded nwid rt, s =>
    { s with networks := (updateNetwork nwid
        (fun r => if r.routes.length < ZTS_MAX_NETWORK_ROUTES
                  then { r with routes := r.routes ++ [rt] } else r) s.networks) }
  | .readiness nwid ready mtu, s =>
    { s with networks := (updateNetwork nwid
        (fun r => { r with ready := ready, mtu := mtu }) s.networks) }
  | .inbound h remote, s =>
    { s with sockets := (updateSocket h
        (fun w => if w.state = SocketState.Listening ∧ w.backlog.length < w.backlogCapacity
                  then { w with backlog := w.backlog ++ [remote] } else w) s.sockets) }
  | .connectResolved h reached, s =>
    { s with sockets := (updateSocket h
        (fun w => if w.state = SocketState.Connecting
                  then { w with state := if reached then SocketState.Connected
                                         else SocketState.Closing }
                  else w) s.sockets) }

/-! ## Calls of the application -/

/-- Modelled from the spec: the calls of sections 4.1 to 4.3, each with what
the collaborators answer during the call. The derived address computations
(`get6planeAddress`, `getRfc4193Address`) are pure functions of their
arguments, not calls on the service, and are left out. -/
inductive Op where
  | start (startupOk : Bool)
  | stop
  | free
  | coreRunning
  | join (nwid now : Nat)
  | leave (nwid : Nat)
  | leaveAll (refused : Nat → Bool)
  | getNetworkDetails (nwid : Nat)
  | getAddress (nwid : Nat) (family : Int)
  | orbit (moonWorldId moonSeed : Nat) (core : Outcome)
  | deorbit (moonWorldId : Nat) (core : Outcome)
  | socket (family type protocol : Int)
  | bind (fd : Int) (addr : sockaddr_storage)
  | listen (fd : Int) (backlog : Nat)
  | connect (fd : Int) (addr : sockaddr_storage) (reached : Bool)
  | accept (fd : Int) (arrival : Option sockaddr_storage)
  | transfer (which : Transfer) (fd flags : Int) (stack : Outcome)
  | setsockopt (fd level optname value : Int) (supported : Bool)
  | getsockopt (fd level optname : Int) (supported : Bool)
  | fcntl (fd cmd flags : Int)
  | ioctl (fd : Int) (request : Nat) (stack : Outcome)
  | select (stack : Outcome)
  | shutdown (fd how : Int)
  | close (fd : Int)

/-- The calls of the Service Lifecycle Controller (section 4.1); every other
call is a Network or Virtual-Socket operation. -/
def Op.isLifecycle : Op → Bool
  | .start _ => true
  | .stop => true
  | .free => true
  | .coreRunning => true
  | _ => false

/-- Modelled from the spec: the result code of a call and the service after
it. -/
def Op.step : Op → Service → Outcome × Service
  | .start startupOk, s => zts_start startupOk s
  | .stop, s => zts_stop s
  | .free, s => zts_free s
  | .coreRunning, s => zts_core_running s
  | .join nwid now, s => zts_join nwid now s
  | .leave nwid, s => zts_leave nwid s
  | .leaveAll refused, s => zts_leave_all refused s
  | .getNetworkDetails nwid, s => ((zts_get_network_details nwid s).1.1, (zts_get_network_details nwid s).2)
  | .getAddress nwid family, s => ((zts_get_address nwid family s).1.1, (zts_get_address nwid family s).2)
  | .orbit w seed core, s => zts_orbit w seed core s
  | .deorbit w core, s => zts_deorbit w core s
  | .socket family type protocol, s => zts_socket family type protocol s
  | .bind fd addr, s => zts_bind fd addr s
  | .listen fd backlog, s => zts_listen fd backlog s
  | .connect fd addr reached, s => zts_connect fd addr reached s
  | .accept fd arrival, s => zts_accept fd arrival s
  | .transfer which fd flags stack, s => zts_transfer which fd flags stack s
  | .setsockopt fd level optname value supported, s => zts_setsockopt fd level optname value supported s
  | .getsockopt fd level optname supported, s =>
    ((zts_getsockopt fd level optname supported s).1.1, (zts_getsockopt fd level optname supported s).2)
  | .fcntl fd cmd flags, s => zts_fcntl fd cmd flags s
  | .ioctl fd request stack, s => zts_ioctl fd request stack s
  | .select stack, s => zts_select stack s
  | .shutdown fd how, s => zts_shutdown fd how s
  | .close fd, s => zts_close fd s

/-- Modelled from the spec: one step of the system, a call of the application
or a signal of a collaborator. -/
inductive Action where
  | call (op : Op)
  | signal (g : Signal)

/-- The service after one step. -/
def Action.apply : Action → Service → Service
  | .call op, s => (op.step s).2
  | .signal g, s => g.deliver s

/-- The service after a sequence of steps. -/
def run : List Action → Service → Service
  | [], s => s
  | a :: rest, s => run rest (a.apply s)

/-- The service after a sequence of calls. -/
def runCalls : List Op → Service → Service
  | [], s => s
  | op :: rest, s => runCalls rest (op.step s).2

/-- A state the service can be in: the result of some sequence of calls and
signals from the initial state. -/
def Reachable (s : Service) : Prop := ∃ steps : List Action, run steps Service.init = s

/-- Handle uniqueness: no two entries of the socket table share a handle. -/
def UniqueHandles (s : Service) : Prop := (handles s.sockets).Nodup

/-- The ids of the membership table, record by record. -/
def networkIds (ns : List NetworkRecord) : List Nat := ns.map (fun r => r.networkId)

/-- Membership uniqueness: no two records of the membership table share a
network id. -/
def UniqueNetworks (s : Service) : Prop := (networkIds s.networks).Nodup

/-- The records of the membership table respect the bounds of the data
model. -/
def BoundedRecords (s : Service) : Prop :=
  ∀ r ∈ s.networks, r.addresses.length ≤ ZTS_MAX_ASSIGNED_ADDRESSES ∧
    r.routes.length ≤ ZTS_MAX_NETWORK_ROUTES

/-! ## Event categories (`libzt.h`, lines 105-144)

The header groups the event codes under the comments "Standard node events",
"libzt node events", "Network-specific events", an unnamed group holding the
two `ZTS_EVENT_NETWORK_STACK_*` codes, "lwIP netif events" and "Peer events";
the two node groups form one category. -/

/-- The five categories of event codes. -/
inductive EventCategory where
  | node
  | network
  | stack
  | netif
  | peer
  deriving DecidableEq, Repr, Fintype

/-- The `ZTS_EVENT_NODE_*` codes. -/
def nodeEvents : List Int :=
  [ ZTS_EVENT_NODE_UP, ZTS_EVENT_NODE_OFFLINE, ZTS_EVENT_NODE_ONLINE,
    ZTS_EVENT_NODE_DOWN, ZTS_EVENT_NODE_IDENTITY_COLLISION,
    ZTS_EVENT_NODE_UNRECOVERABLE_ERROR, ZTS_EVENT_NODE_NORMAL_TERMINATION ]

/-- The network-specific codes. -/
def networkEvents : List Int :=
  [ ZTS_EVENT_NETWORK_NOT_FOUND, ZTS_EVENT_NETWORK_CLIENT_TOO_OLD,
    ZTS_EVENT_NETWORK_REQUESTING_CONFIG, ZTS_EVENT_NETWORK_OK,
    ZTS_EVENT_NETWORK_ACCESS_DENIED, ZTS_EVENT_NETWORK_READY_IP4,
    ZTS_EVENT_NETWORK_READY_IP6, ZTS_EVENT_NETWORK_DOWN ]

/-- The `ZTS_EVENT_NETWORK_STACK_*` codes. -/
def stackEvents : List Int :=
  [ ZTS_EVENT_NETWORK_STACK_UP, ZTS_EVENT_NETWORK_STACK_DOWN ]

/-- The `ZTS_EVENT_NETIF_*` codes. -/
def netifEvents : List Int :=
  [ ZTS_EVENT_NETIF_UP_IP4, ZTS_EVENT_NETIF_UP_IP6, ZTS_EVENT_NETIF_DOWN_IP4,
    ZTS_EVENT_NETIF_DOWN_IP6, ZTS_EVENT_NETIF_REMOVED, ZTS_EVENT_NETIF_LINK_UP,
    ZTS_EVENT_NETIF_LINK_DOWN, ZTS_EVENT_NETIF_NEW_ADDRESS ]

/-- The `ZTS_EVENT_PEER_*` codes. -/
def peerEvents : List Int :=
  [ ZTS_EVENT_PEER_P2P, ZTS_EVENT_PEER_RELAY, ZTS_EVENT_PEER_UNREACHABLE ]

/-- The codes of a category. -/
def EventCategory.codes : EventCategory → List Int
  | .node => nodeEvents
  | .network => networkEvents
  | .stack => stackEvents
  | .netif => netifEvents
  | .peer => peerEvents

/-- The numeric range a category occupies, first and last code. -/
def EventCategory.range : EventCategory → Int × Int
  | .node => (0, 17)
  | .network => (32, 39)
  | .stack => (48, 49)
  | .netif => (64, 71)
  | .peer => (96, 98)

/-- The category read off the quotient of a code by 16. -/
def categoryOfQuotient (q : Int) : Option EventCategory :=
  if q = 0 ∨ q = 1 then some EventCategory.node
  else if q = 2 then some EventCategory.network
  else if q = 3 then some EventCategory.stack
  else if q = 4 then some EventCategory.netif
  else if q = 6 then some EventCategory.peer
  else none

/-! ## Protocol, flag and option constants (`libzt.h`, lines 167-227) -/

def ZTS_IPPROTO_IP : Int := 0x0000
def ZTS_IPPROTO_ICMP : Int := 0x0001
def ZTS_IPPROTO_TCP : Int := 0x0006
def ZTS_IPPROTO_UDP : Int := 0x0011
def ZTS_IPPROTO_IPV6 : Int := 0x0029
def ZTS_IPPROTO_ICMPV6 : Int := 0x003a
def ZTS_IPPROTO_UDPLITE : Int := 0x0088
def ZTS_IPPROTO_RAW : Int := 0x00ff

def ZTS_MSG_PEEK : Nat := 0x0001
def ZTS_MSG_WAITALL : Nat := 0x0002
def ZTS_MSG_OOB : Nat := 0x0004
def ZTS_MSG_DONTWAIT : Nat := 0x0008
def ZTS_MSG_MORE : Nat := 0x0010

/-- The five `send()` and `recv()` flags, in the order of the header. -/
def msgFlags : List Nat :=
  [ZTS_MSG_PEEK, ZTS_MSG_WAITALL, ZTS_MSG_OOB, ZTS_MSG_DONTWAIT, ZTS_MSG_MORE]

/-- The `flags` argument a caller builds from a set of flags: their bitwise
OR, `F1 | F2 | ...`. -/
def orFlags : List Nat → Nat
  | [] => 0
  | f :: rest => f ||| orFlags rest

def ZTS_SOL_SOCKET : Int := 0x0fff
def ZTS_SO_DEBUG : Int := 0x0001
def ZTS_SO_ACCEPTCONN : Int := 0x0002
def ZTS_SO_REUSEADDR : Int := 0x0004
def ZTS_SO_KEEPALIVE : Int := 0x0008
def ZTS_SO_DONTROUTE : Int := 0x0010
def ZTS_SO_BROADCAST : Int := 0x0020
def ZTS_SO_USELOOPBACK : Int := 0x0040
def ZTS_SO_LINGER : Int := 0x0080
/-- The macro `((int)(~ZTS_SO_LINGER))`: the bitwise complement of an `int`. -/
def ZTS_SO_DONTLINGER : Int := Int.not ZTS_SO_LINGER
def ZTS_SO_OOBINLINE : Int := 0x0100
def ZTS_SO_REUSEPORT : Int := 0x0200
def ZTS_SO_SNDBUF : Int := 0x1001
def ZTS_SO_RCVBUF : Int := 0x1002
def ZTS_SO_SNDLOWAT : Int := 0x1003
def ZTS_SO_RCVLOWAT : Int := 0x1004
def ZTS_SO_SNDTIMEO : Int := 0x1005
def ZTS_SO_RCVTIMEO : Int := 0x1006
def ZTS_SO_ERROR : Int := 0x1007
def ZTS_SO_TYPE : Int := 0x1008
def ZTS_SO_CONTIMEO : Int := 0x1009
def ZTS_SO_NO_CHECK : Int := 0x100a
def ZTS_IP_TOS : Int := 0x0001
def ZTS_IP_TTL : Int := 0x0002
def ZTS_TCP_NODELAY : Int := 0x0001
def ZTS_TCP_KEEPALIVE : Int := 0x0002
def ZTS_TCP_KEEPIDLE : Int := 0x0003
def ZTS_TCP_KEEPINTVL : Int := 0x0004
def ZTS_TCP_KEEPCNT : Int := 0x0005
def ZTS_IPV6_CHECKSUM : Int := 0x0007
def ZTS_IPV6_V6ONLY : Int := 0x001b

/-- The option names of level `ZTS_SOL_SOCKET`, in the order of the header. -/
def socketOptionNames : List Int :=
  [ ZTS_SO_DEBUG, ZTS_SO_ACCEPTCONN, ZTS_SO_REUSEADDR, ZTS_SO_KEEPALIVE, ZTS_SO_DONTROUTE,
    ZTS_SO_BROADCAST, ZTS_SO_USELOOPBACK, ZTS_SO_LINGER, ZTS_SO_DONTLINGER, ZTS_SO_OOBINLINE,
    ZTS_SO_REUSEPORT, ZTS_SO_SNDBUF, ZTS_SO_RCVBUF, ZTS_SO_SNDLOWAT, ZTS_SO_RCVLOWAT,
    ZTS_SO_SNDTIMEO, ZTS_SO_RCVTIMEO, ZTS_SO_ERROR, ZTS_SO_TYPE, ZTS_SO_CONTIMEO,
    ZTS_SO_NO_CHECK ]

/-- The option names of level `ZTS_IPPROTO_IP`. -/
def ipOptionNames : List Int := [ZTS_IP_TOS, ZTS_IP_TTL]

/-- The option names of level `ZTS_IPPROTO_TCP`. -/
def tcpOptionNames : List Int :=
  [ZTS_TCP_NODELAY, ZTS_TCP_KEEPALIVE, ZTS_TCP_KEEPIDLE, ZTS_TCP_KEEPINTVL, ZTS_TCP_KEEPCNT]

/-- The option names of level `ZTS_IPPROTO_IPV6`. -/
def ipv6OptionNames : List Int := [ZTS_IPV6_CHECKSUM, ZTS_IPV6_V6ONLY]

/-- The four option levels. -/
def optionLevels : List Int :=
  [ZTS_SOL_SOCKET, ZTS_IPPROTO_IP, ZTS_IPPROTO_TCP, ZTS_IPPROTO_IPV6]

/-- The keys (level, optname) of the per-option table, one per option the
header names. -/
def optionKeys : List (Int × Int) :=
  socketOptionNames.map (fun o => (ZTS_SOL_SOCKET, o)) ++
  ipOptionNames.map (fun o => (ZTS_IPPROTO_IP, o)) ++
  tcpOptionNames.map (fun o => (ZTS_IPPROTO_TCP, o)) ++
  ipv6OptionNames.map (fun o => (ZTS_IPPROTO_IPV6, o))

/-! ## ioctl command values (`libzt.h`, lines 228-239)

The commands are `unsigned long` values below 2^32; no operation of the macros
overflows, so they are computed on natural numbers. -/

def ZTS_IOCPARM_MASK : Nat := 0x7f
def ZTS_IOC_VOID : Nat := 0x20000000
def ZTS_IOC_OUT : Nat := 0x40000000
def ZTS_IOC_IN : Nat := 0x80000000
def ZTS_IOC_INOUT : Nat := ZTS_IOC_IN ||| ZTS_IOC_OUT

/-- The macro `ZTS_IO(x,y)`. -/
def ZTS_IO (x y : Nat) : Nat := ZTS_IOC_VOID ||| (x <<< 8) ||| y

/-- The macro `ZTS_IOR(x,y,t)`; `sizeof_t` is `sizeof(t)`. -/
def ZTS_IOR (x y sizeof_t : Nat) : Nat :=
  ZTS_IOC_OUT ||| ((sizeof_t &&& ZTS_IOCPARM_MASK) <<< 16) ||| (x <<< 8) ||| y

/-- The macro `ZTS_IOW(x,y,t)`; `sizeof_t` is `sizeof(t)`. -/
def ZTS_IOW (x y sizeof_t : Nat) : Nat :=
  ZTS_IOC_IN ||| ((sizeof_t &&& ZTS_IOCPARM_MASK) <<< 16) ||| (x <<< 8) ||| y

/-- The command `ZTS_FIONREAD`; the argument is `sizeof(unsigned long)`. -/
def ZTS_FIONREAD (sizeof_unsigned_long : Nat) : Nat :=
  ZTS_IOR (Char.toNat 'f') 127 sizeof_unsigned_long

/-- The command `ZTS_FIONBIO`; the argument is `sizeof(unsigned long)`. -/
def ZTS_FIONBIO (sizeof_unsigned_long : Nat) : Nat :=
  ZTS_IOW (Char.toNat 'f') 126 sizeof_unsigned_long

/-! ## Descriptor sets (`libzt.h`, lines 241-261 and 350-355)

`MEMP_NUM_NETCONN` and `LWIP_SOCKET_OFFSET` are options of the embedded stack
and are parameters here. The descriptors of the API are `int`; the macros are
textual, so they are given first for a descriptor argument of type `int` and
then for an argument of any of the types of `ArgType`. -/

/-- The two options of the embedded stack that the descriptor-set macros
refer to; `libzt.h` uses them without defining them. -/
structure LwipOpts where
  MEMP_NUM_NETCONN : Nat
  LWIP_SOCKET_OFFSET : Nat
  deriving DecidableEq, Repr

/-- Make FD_SETSIZE match NUM_SOCKETS in socket.c. -/
def ZTS_FD_SETSIZE (o : LwipOpts) : Nat := o.MEMP_NUM_NETCONN

/-- The value of an expression of type `int`: 32 bits, two's complement. -/
def toCInt (x : Int) : Int := (x + 2147483648) % 4294967296 - 2147483648

/-- The descriptor set of `lwip_select`, a type of the embedded stack whose
typedef the header quotes in a comment (lines 350-355):
`unsigned char fd_bits[(FD_SETSIZE+7)/8]`. -/
structure fd_set where
  fd_bits : List Nat
  deriving DecidableEq, Repr

/-- The number of bytes of `fd_bits`, `(ZTS_FD_SETSIZE+7)/8`. -/
def fd_set.size (o : LwipOpts) : Nat := (ZTS_FD_SETSIZE o + 7) / 8

/-- A descriptor set of the declared size. -/
def fd_set.WellFormed (o : LwipOpts) (p : fd_set) : Prop := p.fd_bits.length = fd_set.size o

/-- The expression `(n) - LWIP_SOCKET_OFFSET` for an argument `n` of type
`int`. -/
def fdOffset (o : LwipOpts) (n : Int) : Int := toCInt (n - (o.LWIP_SOCKET_OFFSET : Int))

/-- The condition of `ZTS_FDSETSAFESET` and `ZTS_FDSETSAFEGET` for an argument
`n` of type `int`:
`((n) - LWIP_SOCKET_OFFSET < MEMP_NUM_NETCONN) && (((int)(n) - LWIP_SOCKET_OFFSET) >= 0)`. -/
def fdInRange (o : LwipOpts) (n : Int) : Bool :=
  decide (fdOffset o n < (o.MEMP_NUM_NETCONN : Int)) &&
  decide (toCInt (toCInt n - (o.LWIP_SOCKET_OFFSET : Int)) ≥ 0)

/-- The byte index `((n)-LWIP_SOCKET_OFFSET)/8` for an argument `n` of type
`int`; `/` of C truncates. -/
def fdByteIndex (o : LwipOpts) (n : Int) : Int := Int.tdiv (fdOffset o n) 8

/-- The mask `1 << (((n)-LWIP_SOCKET_OFFSET) & 7)` for an argument `n` of type
`int`. -/
def fdBit (o : LwipOpts) (n : Int) : Nat := 1 <<< (Int.land (fdOffset o n) 7).toNat

/-- Read `fd_bits[i]`; `none` is an access outside the array. -/
def fd_set.read (p : fd_set) (i : Int) : Option Nat :=
  if 0 ≤ i then p.fd_bits[i.toNat]? else none

/-- Store the `int` value `v` into `fd_bits[i]`, converted to `unsigned char`;
`none` is an access outside the array. -/
def fd_set.write (p : fd_set) (i : Int) (v : Int) : Option fd_set :=
  if 0 ≤ i ∧ i.toNat < p.fd_bits.length then
    some { fd_bits := p.fd_bits.set i.toNat (v % 256).toNat }
  else none

/-- The macro `ZTS_FD_SET(n, p)` for an argument `n` of type `int`. -/
def ZTS_FD_SET (o : LwipOpts) (n : Int) (p : fd_set) : Option fd_set :=
  if fdInRange o n then
    match p.read (fdByteIndex o n) with
    | some b => p.write (fdByteIndex o n) (Int.lor (b : Int) (fdBit o n : Int))
    | none => none
  else some p

/-- The macro `ZTS_FD_CLR(n, p)` for an argument `n` of type `int`. -/
def ZTS_FD_CLR (o : LwipOpts) (n : Int) (p : fd_set) : Option fd_set :=
  if fdInRange o n then
    match p.read (fdByteIndex o n) with
    | some b => p.write (fdByteIndex o n) (Int.land (b : Int) (Int.not (fdBit o n : Int)))
    | none => none
  else some p

/-- The macro `ZTS_FD_ISSET(n, p)`, an `int`, for an argument `n` of type
`int`. -/
def ZTS_FD_ISSET (o : LwipOpts) (n : Int) (p : fd_set) : Option Int :=
  if fdInRange o n then
    match p.read (fdByteIndex o n) with
    | some b => some (Int.land (b : Int) (fdBit o n : Int))
    | none => none
  else some 0

/-- The macro `ZTS_FD_ZERO(p)`: `memset` of the `sizeof(*(p))` bytes of the set. -/
def ZTS_FD_ZERO (o : LwipOpts) (_p : fd_set) : fd_set :=
  { fd_bits := List.replicate (fd_set.size o) 0 }

/-- The type of the descriptor argument `n` of a macro. The macros are
textual: `(n) - LWIP_SOCKET_OFFSET` is computed in the type of `n` (the two
options are `int` constants and are converted to it), and only the second
half of the guard casts `n` to `int`. -/
inductive ArgType where
  | int
  | longlong
  deriving DecidableEq, Repr

/-- The value of an expression of type `long long`: 64 bits, two's
complement. -/
def toCLongLong (x : Int) : Int :=
  (x + 9223372036854775808) % 18446744073709551616 - 9223372036854775808

/-- The value of an expression of the given type. -/
def ArgType.convert : ArgType → Int → Int
  | .int => toCInt
  | .longlong => toCLongLong

/-- The expression `(n) - LWIP_SOCKET_OFFSET`, computed in the type of `n`. -/
def fdOffsetTyped (t : ArgType) (o : LwipOpts) (n : Int) : Int :=
  t.convert (n - (o.LWIP_SOCKET_OFFSET : Int))

/-- The condition of `ZTS_FDSETSAFESET` and `ZTS_FDSETSAFEGET`:
`((n) - LWIP_SOCKET_OFFSET < MEMP_NUM_NETCONN) && (((int)(n) - LWIP_SOCKET_OFFSET) >= 0)`;
the first half is computed in the type of `n`, the second in `int`. -/
def fdInRangeTyped (t : ArgType) (o : LwipOpts) (n : Int) : Bool :=
  decide (fdOffsetTyped t o n < (o.MEMP_NUM_NETCONN : Int)) &&
  decide (toCInt (toCInt n - (o.LWIP_SOCKET_OFFSET : Int)) ≥ 0)

/-- The byte index `((n)-LWIP_SOCKET_OFFSET)/8`, computed in the type of `n`. -/
def fdByteIndexTyped (t : ArgType) (o : LwipOpts) (n : Int) : Int :=
  Int.tdiv (fdOffsetTyped t o n) 8

/-- The mask `1 << (((n)-LWIP_SOCKET_OFFSET) & 7)`. -/
def fdBitTyped (t : ArgType) (o : LwipOpts) (n : Int) : Nat :=
  1 <<< (Int.land (fdOffsetTyped t o n) 7).toNat

/-- The macro `ZTS_FD_SET(n, p)` for an argument `n` of type `t`. -/
def ZTS_FD_SET_typed (t : ArgType) (o : LwipOpts) (n : Int) (p : fd_set) : Option fd_set :=
  if fdInRangeTyped t o n then
    match p.read (fdByteIndexTyped t o n) with
    | some b => p.write (fdByteIndexTyped t o n) (Int.lor (b : Int) (fdBitTyped t o n : Int))
    | none => none
  else some p

/-- The macro `ZTS_FD_CLR(n, p)` for an argument `n` of type `t`. -/
def ZTS_FD_CLR_typed (t : ArgType) (o : LwipOpts) (n : Int) (p : fd_set) : Option fd_set :=
  if fdInRangeTyped t o n then
    match p.read (fdByteIndexTyped t o n) with
    | some b =>
      p.write (fdByteIndexTyped t o n) (Int.land (b : Int) (Int.not (fdBitTyped t o n : Int)))
    | none => none
  else some p

/-- The macro `ZTS_FD_ISSET(n, p)`, an `int`, for an argument `n` of type
`t`. -/
def ZTS_FD_ISSET_typed (t : ArgType) (o : LwipOpts) (n : Int) (p : fd_set) : Option Int :=
  if fdInRangeTyped t o n then
    match p.read (fdByteIndexTyped t o n) with
    | some b => some (Int.land (b : Int) (fdBitTyped t o n : Int))
    | none => none
  else some 0

/-! ## Sample states -/

/-- The service after start and one socket call: handle 0 is open. -/
def sampleOneSocket : Service :=
  run [Action.call (Op.start true), Action.call (Op.socket ZTS_AF_INET ZTS_SOCK_STREAM 0)]
    Service.init

/-- The address 10.144.0.7 of family AF_INET. -/
def sampleAddr4 : sockaddr_storage := { ss_family := ZTS_AF_INET, data := [10, 144, 0, 7] }

/-- An address of family AF_INET6. -/
def sampleAddr6 : sockaddr_storage := { ss_family := ZTS_AF_INET6, data := [0xfd, 0x80, 0x56, 0xc2] }

/-- A second address of family AF_INET. -/
def sampleAddr4b : sockaddr_storage := { ss_family := ZTS_AF_INET, data := [10, 144, 0, 9] }

/-- The service after start, a join of network 7 and the assignment of an
IPv6 address and then of two IPv4 addresses. -/
def sampleJoined : Service :=
  run [Action.call (Op.start true), Action.call (Op.join 7 100),
       Action.signal (Signal.addressAssigned 7 sampleAddr6),
       Action.signal (Signal.addressAssigned 7 sampleAddr4),
       Action.signal (Signal.addressAssigned 7 sampleAddr4b)]
    Service.init

/-- The entry of handle 0 in `sampleOneSocket`. -/
def sampleSocket0 : VirtualSocket :=
  VirtualSocket.create 0 ZTS_AF_INET ZTS_SOCK_STREAM 0 SocketState.Created none

/-- Steps after the close of handle 0 that do not confirm its teardown: a
second socket call and the teardown confirmation of another handle. -/
def sampleStepsNoTeardown : List Action :=
  [Action.call (Op.socket ZTS_AF_INET ZTS_SOCK_DGRAM 0),
   Action.signal (Signal.teardownComplete 5)]

/-- The options of a stack with 12 connections and descriptors starting at 3:
the descriptors are 3..14 and a set has 2 bytes. -/
def sampleOpts : LwipOpts := { MEMP_NUM_NETCONN := 12, LWIP_SOCKET_OFFSET := 3 }

/-- A set holding the descriptors 3 and 10. -/
def sampleFdSet : fd_set := { fd_bits := [0x81, 0x00] }

/-! ## Properties of the constants -/

/-- C1: the 28 event codes ZTS_EVENT_NODE_UP ... ZTS_EVENT_PEER_UNREACHABLE are
pairwise different, all lie in 0..98, and ZTS_EVENT_NONE, which is -1, is
different from every one of them. -/
theorem event_codes_pairwise_distinct :
    eventCodes.length = 28 ∧ eventCodes.Pairwise (fun a b => a ≠ b) ∧
    (∀ c ∈ eventCodes, 0 ≤ c ∧ c ≤ 98) ∧
    ZTS_EVENT_NONE = -1 ∧ (∀ c ∈ eventCodes, ZTS_EVENT_NONE ≠ c) := by
  refine ⟨rfl, by decide, by decide, rfl, by decide⟩

/-- C2: ZTS_ERR_OK is 0, the three failure codes are pairwise distinct
negative integers, and a call that returns a handle or a count (a non-negative
integer) or an error reports an error exactly when the returned integer is
negative; the returned integer also determines the result. -/
theorem control_result_is_error_iff_negative :
    ZTS_ERR_OK = 0 ∧
    (ZTS_ERR_INVALID_ARG < 0 ∧ ZTS_ERR_SERVICE < 0 ∧ ZTS_ERR_INVALID_OP < 0) ∧
    (ZTS_ERR_INVALID_ARG ≠ ZTS_ERR_SERVICE ∧ ZTS_ERR_INVALID_ARG ≠ ZTS_ERR_INVALID_OP ∧
      ZTS_ERR_SERVICE ≠ ZTS_ERR_INVALID_OP) ∧
    (∀ r : CallResult, r.isError = true ↔ r.toInt < 0) ∧
    Function.Injective CallResult.toInt := by
  refine ⟨rfl, by decide, by decide, ?_, ?_⟩
  · intro r
    cases r with
    | value n => simp [CallResult.isError, CallResult.toInt]
    | error e => cases e <;> simp [CallResult.isError, CallResult.toInt, ControlError.code,
        ZTS_ERR_INVALID_ARG, ZTS_ERR_SERVICE, ZTS_ERR_INVALID_OP]
  · intro a b h
    cases a with
    | value n =>
      cases b with
      | value m => simpa [CallResult.toInt] using h
      | error e =>
        cases e <;> simp [CallResult.toInt, ControlError.code,
          ZTS_ERR_INVALID_ARG, ZTS_ERR_SERVICE, ZTS_ERR_INVALID_OP] at h
    | error e =>
      cases b with
      | value m =>
        cases e <;> simp [CallResult.toInt, ControlError.code,
          ZTS_ERR_INVALID_ARG, ZTS_ERR_SERVICE, ZTS_ERR_INVALID_OP] at h
      | error f =>
        cases e <;> cases f <;> simp [CallResult.toInt, ControlError.code,
          ZTS_ERR_INVALID_ARG, ZTS_ERR_SERVICE, ZTS_ERR_INVALID_OP] at h <;> rfl

/-- C10, as stated, fails: the five kinds of the taxonomy cannot each have a
code of their own among the control API error codes, distinct from ZTS_ERR_OK
and from the codes of the other kinds, because the header defines only three
codes other than ZTS_ERR_OK. -/
theorem not_every_error_kind_has_own_code :
    ¬ ∃ code : ErrorKind → Int,
      (∀ k, code k ∈ controlApiErrorCodes ∧ code k ≠ ZTS_ERR_OK) ∧ Function.Injective code := by
  rintro ⟨code, hmem, hinj⟩
  have hsub : ∀ k ∈ (Finset.univ : Finset ErrorKind), code k ∈ ({-1, -2, -3} : Finset Int) := by
    intro k _
    have h := hmem k
    simp only [controlApiErrorCodes, ZTS_ERR_OK, ZTS_ERR_INVALID_ARG, ZTS_ERR_SERVICE,
      ZTS_ERR_INVALID_OP, List.mem_cons, List.mem_singleton, List.not_mem_nil, or_false] at h
    simp only [Finset.mem_insert, Finset.mem_singleton]
    rcases h with ⟨h0 | h1 | h2 | h3, hne⟩
    · exact absurd h0 hne
    · exact Or.inl h1
    · exact Or.inr (Or.inl h2)
    · exact Or.inr (Or.inr h3)
  have hcard := Finset.card_le_card_of_injOn code hsub (hinj.injOn)
  have h5 : (Finset.univ : Finset ErrorKind).card = 5 := rfl
  have h3 : ({-1, -2, -3} : Finset Int).card = 3 := rfl
  omega

/-- C10, amended: InvalidArgument, ServiceUnavailable and InvalidOperation
have the codes ZTS_ERR_INVALID_ARG, ZTS_ERR_SERVICE and ZTS_ERR_INVALID_OP,
which are among the control API error codes, differ from ZTS_ERR_OK and from
each other; these are all the codes of the header other than ZTS_ERR_OK, and
WouldBlock and Timeout have none. -/
theorem control_error_kinds_have_own_codes :
    (ErrorKind.InvalidArgument.code? = some ZTS_ERR_INVALID_ARG ∧
      ErrorKind.ServiceUnavailable.code? = some ZTS_ERR_SERVICE ∧
      ErrorKind.InvalidOperation.code? = some ZTS_ERR_INVALID_OP) ∧
    (∀ (k : ErrorKind) (c : Int), k.code? = some c → c ∈ controlApiErrorCodes ∧ c ≠ ZTS_ERR_OK) ∧
    (∀ (k1 k2 : ErrorKind) (c : Int), k1.code? = some c → k2.code? = some c → k1 = k2) ∧
    (∀ c ∈ controlApiErrorCodes, c ≠ ZTS_ERR_OK →
      ∃ k : ErrorKind, (k = ErrorKind.InvalidArgument ∨ k = ErrorKind.ServiceUnavailable ∨
        k = ErrorKind.InvalidOperation) ∧ k.code? = some c) ∧
    (ErrorKind.WouldBlock.code? = none ∧ ErrorKind.Timeout.code? = none) := by
  refine ⟨⟨rfl, rfl, rfl⟩, ?_, ?_, ?_, ⟨rfl, rfl⟩⟩
  · intro k c h
    cases k <;> simp [ErrorKind.code?, ErrorKind.control?, ControlError.code] at h <;>
      subst h <;> decide
  · intro k1 k2 c h1 h2
    cases k1 <;> cases k2 <;>
      simp [ErrorKind.code?, ErrorKind.control?, ControlError.code, ZTS_ERR_INVALID_ARG,
        ZTS_ERR_SERVICE, ZTS_ERR_INVALID_OP] at h1 h2 ⊢ <;> omega
  · intro c hc hne
    simp only [controlApiErrorCodes, List.mem_cons, List.mem_singleton, List.not_mem_nil,
      or_false] at hc
    rcases hc with h | h | h | h
    · exact absurd h hne
    · exact ⟨ErrorKind.InvalidArgument, Or.inl rfl, by rw [h]; rfl⟩
    · exact ⟨ErrorKind.ServiceUnavailable, Or.inr (Or.inl rfl), by rw [h]; rfl⟩
    · exact ⟨ErrorKind.InvalidOperation, Or.inr (Or.inr rfl), by rw [h]; rfl⟩

/-! ## Lemmas on the tables -/

theorem handles_updateSocket (h : Nat) (f : VirtualSocket → VirtualSocket)
    (ss : List VirtualSocket) : handles (updateSocket h f ss) = handles ss := by
  induction ss with
  | nil => rfl
  | cons v rest ih =>
    simp only [handles, updateSocket, List.map_cons] at ih ⊢
    rw [ih]
    by_cases hv : v.handle = h <;> simp [hv]

theorem networkIds_updateNetwork (n : Nat) (f : NetworkRecord → NetworkRecord)
    (ns : List NetworkRecord) : networkIds (updateNetwork n f ns) = networkIds ns := by
  induction ns with
  | nil => rfl
  | cons r rest ih =>
    simp only [networkIds, updateNetwork, List.map_cons] at ih ⊢
    rw [ih]
    by_cases hr : r.networkId = n <;> simp [hr]

theorem firstFree_not_mem (used : List Nat) :
    ∀ (fuel c : Nat), (used.filter (fun x => decide (c ≤ x))).length ≤ fuel →
      firstFree used fuel c ∉ used := by
  intro fuel
  induction fuel with
  | zero =>
    intro c hlen hmem
    have hin : c ∈ used.filter (fun x => decide (c ≤ x)) := by
      simp [List.mem_filter, firstFree] at hmem ⊢
      exact hmem
    have hnil : used.filter (fun x => decide (c ≤ x)) = [] :=
      List.length_eq_zero.mp (Nat.le_zero.mp hlen)
    rw [hnil] at hin
    exact absurd hin (List.not_mem_nil c)
  | succ fuel ih =>
    intro c hlen
    by_cases hc : c ∈ used
    · simp only [firstFree, hc, if_true]
      apply ih
      have hstrict : (used.filter (fun x => decide (c + 1 ≤ x))).length <
          (used.filter (fun x => decide (c ≤ x))).length := by
        clear hlen ih
        induction used with
        | nil => exact absurd hc (List.not_mem_nil c)
        | cons x xs ihx =>
          have hmono : (xs.filter (fun x => decide (c + 1 ≤ x))).length ≤
              (xs.filter (fun x => decide (c ≤ x))).length := by
            clear ihx hc
            induction xs with
            | nil => simp
            | cons y ys ihy =>
              by_cases h1 : c + 1 ≤ y
              · have h2 : c ≤ y := by omega
                simp [List.filter_cons, h1, h2, ihy]
              · by_cases h2 : c ≤ y
                · simp [List.filter_cons, h1, h2]; omega
                · simp [List.filter_cons, h1, h2, ihy]
          by_cases hx : x = c
          · subst hx
            simp [List.filter_cons]
            omega
          · have hxs : c ∈ xs := by
              rcases List.mem_cons.mp hc with h | h
              · exact absurd h.symm hx
              · exact h
            have := ihx hxs
            by_cases h1 : c + 1 ≤ x
            · have h2 : c ≤ x := by omega
              simp [List.filter_cons, h1, h2]; omega
            · by_cases h2 : c ≤ x
              · simp [List.filter_cons, h1, h2]; omega
              · simp [List.filter_cons, h1, h2]; omega
      omega
    · simp [firstFree, hc]

theorem freshHandle_not_mem (ss : List VirtualSocket) : freshHandle ss ∉ handles ss := by
  unfold freshHandle
  apply firstFree_not_mem
  exact List.length_filter_le _ _

/-! ## The gate and the lifecycle -/

/-- C3: every gated operation (every Network or Virtual-Socket operation, that
is every call other than those of the lifecycle controller) called while the
service state is not Running fails with the service-unavailable kind, whose
code is ZTS_ERR_SERVICE, and leaves the service state, the socket table and
the network table unchanged. -/
theorem gated_call_outside_running_fails (op : Op) (s : Service)
    (hgated : op.isLifecycle = false) (hstate : s.state ≠ ServiceState.Running) :
    (op.step s).1 = Outcome.fail ErrorKind.ServiceUnavailable ∧
    ErrorKind.ServiceUnavailable.code? = some ZTS_ERR_SERVICE ∧
    (op.step s).2.state = s.state ∧
    (op.step s).2.sockets = s.sockets ∧
    (op.step s).2.networks = s.networks := by
  have hgate : _zts_can_perform_service_operation s = false := by
    simp [_zts_can_perform_service_operation, hstate]
  cases op <;> simp [Op.isLifecycle] at hgated <;>
    simp [Op.step, zts_join, zts_leave, zts_leave_all, zts_get_network_details, zts_get_address,
      zts_orbit, zts_deorbit, zts_socket, zts_bind, zts_listen, zts_connect, zts_accept,
      zts_transfer, zts_setsockopt, zts_getsockopt, zts_fcntl, zts_ioctl, zts_select,
      zts_shutdown, zts_close, hgate] <;> rfl

/-- A gated call on a service at rest: `socket` before the first `start`. -/
theorem gated_call_outside_running_fails_witness :
    (Op.socket ZTS_AF_INET ZTS_SOCK_STREAM 0).isLifecycle = false ∧
    Service.init.state ≠ ServiceState.Running ∧
    ((Op.socket ZTS_AF_INET ZTS_SOCK_STREAM 0).step Service.init).1 =
      Outcome.fail ErrorKind.ServiceUnavailable ∧
    ((Op.socket ZTS_AF_INET ZTS_SOCK_STREAM 0).step Service.init).2.sockets = [] :=
  ⟨rfl, by decide,
   (gated_call_outside_running_fails (Op.socket ZTS_AF_INET ZTS_SOCK_STREAM 0) Service.init rfl
      (by decide)).1,
   (gated_call_outside_running_fails (Op.socket ZTS_AF_INET ZTS_SOCK_STREAM 0) Service.init rfl
      (by decide)).2.2.2.1⟩

theorem step_of_freed (op : Op) (s : Service) (hs : s.state = ServiceState.Freed) :
    (op.step s).2 = s := by
  have hgate : _zts_can_perform_service_operation s = false := by
    simp [_zts_can_perform_service_operation, hs]
  cases op <;>
    simp [Op.step, zts_start, zts_stop, zts_free, zts_core_running, zts_join, zts_leave,
      zts_leave_all, zts_get_network_details, zts_get_address,
      zts_orbit, zts_deorbit, zts_socket, zts_bind, zts_listen, zts_connect, zts_accept,
      zts_transfer, zts_setsockopt, zts_getsockopt, zts_fcntl, zts_ioctl, zts_select,
      zts_shutdown, zts_close, hgate, hs]

/-- C4: start is rejected with InvalidOperation, whose code is
ZTS_ERR_INVALID_OP, whenever the state is neither Uninitialized nor Stopped,
and from the state Freed no sequence of calls (start with any startup outcome,
stop, free, and any other call) changes the service again. -/
theorem freed_is_terminal (s : Service) (startupOk : Bool) (calls : List Op) :
    (s.state ≠ ServiceState.Uninitialized → s.state ≠ ServiceState.Stopped →
      zts_start startupOk s = (Outcome.fail ErrorKind.InvalidOperation, s) ∧
      ErrorKind.InvalidOperation.code? = some ZTS_ERR_INVALID_OP) ∧
    (s.state = ServiceState.Freed →
      runCalls calls s = s ∧ (runCalls calls s).state = ServiceState.Freed) := by
  constructor
  · intro h1 h2
    simp [zts_start, h1, h2]
    rfl
  · intro hs
    have hrun : runCalls calls s = s := by
      induction calls with
      | nil => rfl
      | cons op rest ih =>
        simp only [runCalls]
        rw [step_of_freed op s hs]
        exact ih
    exact ⟨hrun, by rw [hrun]; exact hs⟩

/-- The lifecycle start, stop, free reaches Freed, and a further start, stop
and free leave it there. -/
theorem freed_is_terminal_witness :
    (runCalls [Op.start true, Op.stop, Op.free] Service.init).state = ServiceState.Freed ∧
    zts_start true (runCalls [Op.start true, Op.stop, Op.free] Service.init) =
      (Outcome.fail ErrorKind.InvalidOperation,
       runCalls [Op.start true, Op.stop, Op.free] Service.init) ∧
    (runCalls [Op.start true, Op.stop, Op.free]
        (runCalls [Op.start true, Op.stop, Op.free] Service.init)).state = ServiceState.Freed :=
  ⟨by decide,
   ((freed_is_terminal (runCalls [Op.start true, Op.stop, Op.free] Service.init) true []).1
      (by decide) (by decide)).1,
   ((freed_is_terminal (runCalls [Op.start true, Op.stop, Op.free] Service.init) true
      [Op.start true, Op.stop, Op.free]).2 (by decide)).2⟩

/-! ## Invariants of the tables -/

theorem handles_append_create (ss : List VirtualSocket) (h : Nat) (family type protocol : Int)
    (st : SocketState) (remote : Option sockaddr_storage) :
    handles (ss ++ [VirtualSocket.create h family type protocol st remote]) = handles ss ++ [h] := by
  simp [handles, VirtualSocket.create]

/-- What a call does to the handles of the socket table: nothing, or one new
handle, the fresh one, at the end, or (free) the release of the whole table
on the way to Freed. -/
theorem handles_step (op : Op) (s : Service) :
    handles (op.step s).2.sockets = handles s.sockets ∨
    handles (op.step s).2.sockets = handles s.sockets ++ [freshHandle s.sockets] ∨
    ((op.step s).2.sockets = [] ∧ (op.step s).2.state = ServiceState.Freed) := by
  cases op <;>
    simp only [Op.step, zts_start, zts_stop, zts_free, zts_core_running, zts_join, zts_leave,
      zts_leave_all, zts_get_network_details, zts_get_address,
      zts_orbit, zts_deorbit, zts_socket, zts_bind, zts_listen, zts_connect, zts_accept,
      zts_transfer, zts_setsockopt, zts_getsockopt, zts_fcntl, zts_ioctl, zts_select,
      zts_shutdown, zts_close, acceptInto] <;>
    (repeat' split) <;>
    simp [handles_updateSocket, handles_append_create]

/-- What a call does to the membership table: nothing, or one new record of
an id that was not joined, at the end, or the removal of some records. -/
theorem networks_step (op : Op) (s : Service) :
    (op.step s).2.networks = s.networks ∨
    (∃ n now, findNetwork n s.networks = none ∧
      (op.step s).2.networks = s.networks ++ [NetworkRecord.fresh n now]) ∨
    (∃ keep : NetworkRecord → Bool, (op.step s).2.networks = s.networks.filter keep) := by
  cases op with
  | join n now =>
    simp only [Op.step, zts_join]
    split
    · split
      · exact Or.inl rfl
      · rename_i hnone
        exact Or.inr (Or.inl ⟨n, now, hnone, rfl⟩)
    · exact Or.inl rfl
  | leave n =>
    simp only [Op.step, zts_leave]
    split
    · split
      · exact Or.inr (Or.inr ⟨_, rfl⟩)
      · exact Or.inl rfl
    · exact Or.inl rfl
  | leaveAll refused =>
    simp only [Op.step, zts_leave_all]
    split
    · exact Or.inr (Or.inr ⟨_, rfl⟩)
    · exact Or.inl rfl
  | free =>
    simp only [Op.step, zts_free]
    split
    · exact Or.inr (Or.inr ⟨fun _ => false, by simp⟩)
    · exact Or.inl rfl
  | _ =>
    simp only [Op.step, zts_start, zts_stop, zts_core_running,
      zts_get_network_details, zts_get_address,
      zts_orbit, zts_deorbit, zts_socket, zts_bind, zts_listen, zts_connect, zts_accept,
      zts_transfer, zts_setsockopt, zts_getsockopt, zts_fcntl, zts_ioctl, zts_select,
      zts_shutdown, zts_close, acceptInto]
    (repeat' split) <;> first | rfl | simp

theorem not_mem_networkIds_of_findNetwork_none (n : Nat) (ns : List NetworkRecord)
    (h : findNetwork n ns = none) : n ∉ networkIds ns := by
  intro hmem
  simp only [networkIds, List.mem_map] at hmem
  obtain ⟨r, hr, hid⟩ := hmem
  simp only [findNetwork, List.find?_eq_none] at h
  exact h r hr (by simp [hid])

theorem state_deliver (g : Signal) (s : Service) : (g.deliver s).state = s.state := by
  cases g <;> rfl

theorem handles_deliver (g : Signal) (s : Service) :
    handles (g.deliver s).sockets = handles s.sockets ∨
    ∃ h, g = Signal.teardownComplete h ∧
      (g.deliver s).sockets = s.sockets.filter
        (fun v => !(decide (v.handle = h) && decide (v.state = SocketState.Closing))) := by
  cases g with
  | teardownComplete h => exact Or.inr ⟨h, rfl, rfl⟩
  | _ => simp [Signal.deliver, handles_updateSocket]

theorem uniqueHandles_step (op : Op) (s : Service) (h : UniqueHandles s) :
    UniqueHandles (op.step s).2 := by
  unfold UniqueHandles at h ⊢
  rcases handles_step op s with h1 | h1 | h1
  · rw [h1]; exact h
  · rw [h1]
    exact List.Nodup.append h (List.nodup_singleton _)
      (by simpa using freshHandle_not_mem s.sockets)
  · rw [h1.1]; exact List.nodup_nil

theorem uniqueHandles_deliver (g : Signal) (s : Service) (h : UniqueHandles s) :
    UniqueHandles (g.deliver s) := by
  unfold UniqueHandles at h ⊢
  rcases handles_deliver g s with h1 | ⟨k, _, h1⟩
  · rw [h1]; exact h
  · rw [h1]
    exact h.sublist ((List.filter_sublist _).map _)

theorem uniqueNetworks_step (op : Op) (s : Service) (h : UniqueNetworks s) :
    UniqueNetworks (op.step s).2 := by
  unfold UniqueNetworks at h ⊢
  rcases networks_step op s with h1 | ⟨n, now, hnone, h1⟩ | ⟨keep, h1⟩
  · rw [h1]; exact h
  · rw [h1]
    have hn := not_mem_networkIds_of_findNetwork_none n s.networks hnone
    simp only [networkIds, List.map_append, List.map_cons, List.map_nil] at hn ⊢
    exact List.Nodup.append h (List.nodup_singleton _) (by simpa [NetworkRecord.fresh] using hn)
  · rw [h1]
    exact h.sublist ((List.filter_sublist _).map _)

theorem boundedRecords_step (op : Op) (s : Service) (h : BoundedRecords s) :
    BoundedRecords (op.step s).2 := by
  unfold BoundedRecords at h ⊢
  rcases networks_step op s with h1 | ⟨n, now, _, h1⟩ | ⟨keep, h1⟩
  · rw [h1]; exact h
  · rw [h1]
    intro r hr
    rcases List.mem_append.mp hr with hr | hr
    · exact h r hr
    · rw [List.mem_singleton.mp hr]
      simp [NetworkRecord.fresh]
  · rw [h1]
    intro r hr
    exact h r (List.mem_of_mem_filter hr)

theorem uniqueNetworks_deliver (g : Signal) (s : Service) (h : UniqueNetworks s) :
    UniqueNetworks (g.deliver s) := by
  unfold UniqueNetworks at h ⊢
  cases g <;> simpa [Signal.deliver, networkIds_updateNetwork] using h

theorem boundedRecords_updateNetwork (n : Nat) (f : NetworkRecord → NetworkRecord)
    (ns : List NetworkRecord)
    (hf : ∀ r, r.addresses.length ≤ ZTS_MAX_ASSIGNED_ADDRESSES ∧
        r.routes.length ≤ ZTS_MAX_NETWORK_ROUTES →
      (f r).addresses.length ≤ ZTS_MAX_ASSIGNED_ADDRESSES ∧
        (f r).routes.length ≤ ZTS_MAX_NETWORK_ROUTES)
    (h : ∀ r ∈ ns, r.addresses.length ≤ ZTS_MAX_ASSIGNED_ADDRESSES ∧
        r.routes.length ≤ ZTS_MAX_NETWORK_ROUTES) :
    ∀ r ∈ updateNetwork n f ns, r.addresses.length ≤ ZTS_MAX_ASSIGNED_ADDRESSES ∧
        r.routes.length ≤ ZTS_MAX_NETWORK_ROUTES := by
  intro r hr
  simp only [updateNetwork, List.mem_map] at hr
  obtain ⟨q, hq, rfl⟩ := hr
  by_cases hid : q.networkId = n
  · simpa [hid] using hf q (h q hq)
  · simpa [hid] using h q hq

theorem boundedRecords_deliver (g : Signal) (s : Service) (h : BoundedRecords s) :
    BoundedRecords (g.deliver s) := by
  unfold BoundedRecords at h ⊢
  cases g with
  | addressAssigned n a =>
    apply boundedRecords_updateNetwork _ _ _ _ h
    intro r hr
    by_cases hlen : r.addresses.length < ZTS_MAX_ASSIGNED_ADDRESSES
    · simp only [hlen, if_true, List.length_append, List.length_singleton]
      exact ⟨hlen, hr.2⟩
    · simpa [hlen] using hr
  | routeAdded n rt =>
    apply boundedRecords_updateNetwork _ _ _ _ h
    intro r hr
    by_cases hlen : r.routes.length < ZTS_MAX_NETWORK_ROUTES
    · simp only [hlen, if_true, List.length_append, List.length_singleton]
      exact ⟨hr.1, hlen⟩
    · simpa [hlen] using hr
  | readiness n ready mtu =>
    apply boundedRecords_updateNetwork _ _ _ _ h
    intro r hr
    exact hr
  | teardownComplete k => exact h
  | inbound k remote => exact h
  | connectResolved k reached => exact h

/-- The three invariants hold along every sequence of calls and signals. -/
theorem invariants_run (steps : List Action) :
    ∀ s : Service, UniqueHandles s ∧ UniqueNetworks s ∧ BoundedRecords s →
      UniqueHandles (run steps s) ∧ UniqueNetworks (run steps s) ∧
        BoundedRecords (run steps s) := by
  induction steps with
  | nil => intro s h; exact h
  | cons a rest ih =>
    intro s h
    simp only [run]
    apply ih
    cases a with
    | call op =>
      exact ⟨uniqueHandles_step op s h.1, uniqueNetworks_step op s h.2.1,
        boundedRecords_step op s h.2.2⟩
    | signal g =>
      exact ⟨uniqueHandles_deliver g s h.1, uniqueNetworks_deliver g s h.2.1,
        boundedRecords_deliver g s h.2.2⟩

theorem invariants_of_reachable (s : Service) (h : Reachable s) :
    UniqueHandles s ∧ UniqueNetworks s ∧ BoundedRecords s := by
  obtain ⟨steps, rfl⟩ := h
  apply invariants_run
  refine ⟨?_, ?_, ?_⟩
  · exact List.nodup_nil
  · exact List.nodup_nil
  · intro r hr
    exact absurd hr (List.not_mem_nil r)

/-! ## Closing a handle -/

theorem findOpen_some (fd : Int) (ss : List VirtualSocket) (v : VirtualSocket)
    (h : findOpen fd ss = some v) : (v.handle : Int) = fd ∧ v.isOpen = true ∧ v ∈ ss := by
  unfold findOpen at h
  have hp := List.find?_some h
  have hm := List.mem_of_find?_eq_some h
  simp only [Bool.and_eq_true, decide_eq_true_eq] at hp
  exact ⟨hp.1, hp.2, hm⟩

theorem findOpen_eq_none (fd : Int) (ss : List VirtualSocket) :
    findOpen fd ss = none ↔ ∀ v ∈ ss, (v.handle : Int) = fd → v.isOpen = false := by
  unfold findOpen
  rw [List.find?_eq_none]
  constructor
  · intro h v hv hfd
    have := h v hv
    simpa [hfd] using this
  · intro h v hv
    by_cases hfd : (v.handle : Int) = fd
    · simp [hfd, h v hv hfd]
    · simp [hfd]

theorem findOpen_updateSocket_none (fd : Int) (k : Nat) (f : VirtualSocket → VirtualSocket)
    (ss : List VirtualSocket) (hf : ∀ w, w.isOpen = false → (f w).isOpen = false)
    (h : findOpen fd ss = none) : findOpen fd (updateSocket k f ss) = none := by
  rw [findOpen_eq_none] at h ⊢
  intro u hu hfd
  simp only [updateSocket, List.mem_map] at hu
  obtain ⟨w, hw, rfl⟩ := hu
  by_cases hk : w.handle = k
  · simp only [hk, if_true] at hfd ⊢
    have hclosed := hf w (h w hw (by simpa [hk] using hfd))
    simpa [VirtualSocket.isOpen] using hclosed
  · simp only [hk, if_false] at hfd ⊢
    exact h w hw hfd

theorem findOpen_close_none (fd : Int) (ss : List VirtualSocket) (v : VirtualSocket)
    (h : findOpen fd ss = some v) :
    findOpen fd (updateSocket v.handle (fun w => { w with state := SocketState.Closing }) ss) =
      none := by
  obtain ⟨hfd, _, _⟩ := findOpen_some fd ss v h
  rw [findOpen_eq_none]
  intro u hu hufd
  simp only [updateSocket, List.mem_map] at hu
  obtain ⟨w, _, rfl⟩ := hu
  by_cases hk : w.handle = v.handle
  · simp [hk, VirtualSocket.isOpen]
  · simp only [hk, if_false] at hufd
    exact absurd (Int.ofNat_inj.mp (hufd.trans hfd.symm)) hk

theorem findOpen_deliver_none (fd : Int) (g : Signal) (s : Service)
    (h : findOpen fd s.sockets = none) : findOpen fd (g.deliver s).sockets = none := by
  cases g with
  | teardownComplete k =>
    rw [findOpen_eq_none] at h ⊢
    intro v hv hfd
    exact h v (List.mem_of_mem_filter hv) hfd
  | addressAssigned n a => exact h
  | routeAdded n rt => exact h
  | readiness n ready mtu => exact h
  | inbound k remote =>
    apply findOpen_updateSocket_none _ _ _ _ _ h
    intro w hw
    by_cases hc : w.state = SocketState.Listening ∧ w.backlog.length < w.backlogCapacity
    · simp [hc, VirtualSocket.isOpen] at hw
    · rw [if_neg hc]
      exact hw
  | connectResolved k reached =>
    apply findOpen_updateSocket_none _ _ _ _ _ h
    intro w hw
    by_cases hc : w.state = SocketState.Connecting
    · simp [VirtualSocket.isOpen, hc] at hw
    · simp only [hc, if_false]
      exact hw

theorem closed_stays_closed (fd : Int) (signals : List Signal) :
    ∀ s : Service, s.state = ServiceState.Running → findOpen fd s.sockets = none →
      (run (signals.map Action.signal) s).state = ServiceState.Running ∧
      findOpen fd (run (signals.map Action.signal) s).sockets = none := by
  induction signals with
  | nil => intro s hs h; exact ⟨hs, h⟩
  | cons g rest ih =>
    intro s hs h
    simp only [List.map_cons, run, Action.apply]
    exact ih (g.deliver s) (by rw [state_deliver]; exact hs) (findOpen_deliver_none fd g s h)

theorem close_of_not_open (fd : Int) (s : Service) (hs : s.state = ServiceState.Running)
    (h : findOpen fd s.sockets = none) :
    (zts_close fd s).1 = Outcome.fail ErrorKind.InvalidArgument := by
  simp [zts_close, _zts_can_perform_service_operation, hs, h]

/-- C6: for every open handle fd of a Running service, calling close(fd)
twice in a row returns 0 the first time and InvalidArgument, whose code is
ZTS_ERR_INVALID_ARG, the second time; the same holds when signals of the
collaborators (such as the teardown confirmation) arrive between the two
calls. -/
theorem close_twice (s : Service) (fd : Int) (signals : List Signal)
    (hrun : s.state = ServiceState.Running) (hopen : (findOpen fd s.sockets).isSome = true) :
    (zts_close fd s).1 = Outcome.value 0 ∧
    (zts_close fd (zts_close fd s).2).1 = Outcome.fail ErrorKind.InvalidArgument ∧
    ErrorKind.InvalidArgument.code? = some ZTS_ERR_INVALID_ARG ∧
    (zts_close fd (run (signals.map Action.signal) (zts_close fd s).2)).1 =
      Outcome.fail ErrorKind.InvalidArgument := by
  obtain ⟨v, hv⟩ := Option.isSome_iff_exists.mp hopen
  have hgate : _zts_can_perform_service_operation s = true := by
    simp [_zts_can_perform_service_operation, hrun]
  have hfirst : zts_close fd s = (Outcome.value 0,
      { s with sockets := (updateSocket v.handle
          (fun w => { w with state := SocketState.Closing }) s.sockets) }) := by
    simp [zts_close, hgate, hv]
  have hstate : (zts_close fd s).2.state = ServiceState.Running := by
    rw [hfirst]; exact hrun
  have hnone : findOpen fd (zts_close fd s).2.sockets = none := by
    rw [hfirst]; exact findOpen_close_none fd s.sockets v hv
  refine ⟨by rw [hfirst], close_of_not_open fd _ hstate hnone, rfl, ?_⟩
  obtain ⟨h1, h2⟩ := closed_stays_closed fd signals _ hstate hnone
  exact close_of_not_open fd _ h1 h2

/-- Closing handle 0 twice, with the teardown confirmed in between. -/
theorem close_twice_witness :
    sampleOneSocket.state = ServiceState.Running ∧
    (findOpen 0 sampleOneSocket.sockets).isSome = true ∧
    (zts_close 0 sampleOneSocket).1 = Outcome.value 0 ∧
    (zts_close 0 (zts_close 0 sampleOneSocket).2).1 = Outcome.fail ErrorKind.InvalidArgument ∧
    (zts_close 0 (run ([Signal.teardownComplete 0].map Action.signal)
      (zts_close 0 sampleOneSocket).2)).1 = Outcome.fail ErrorKind.InvalidArgument :=
  ⟨by decide, by decide,
   (close_twice sampleOneSocket 0 [Signal.teardownComplete 0] (by decide) (by decide)).1,
   (close_twice sampleOneSocket 0 [Signal.teardownComplete 0] (by decide) (by decide)).2.1,
   (close_twice sampleOneSocket 0 [Signal.teardownComplete 0] (by decide) (by decide)).2.2.2⟩

/-! ## Membership -/

theorem findNetwork_some (n : Nat) (ns : List NetworkRecord) (r : NetworkRecord)
    (h : findNetwork n ns = some r) : r.networkId = n ∧ r ∈ ns := by
  unfold findNetwork at h
  have hp := List.find?_some h
  have hm := List.mem_of_find?_eq_some h
  simp only [decide_eq_true_eq] at hp
  exact ⟨hp, hm⟩

/-- C7: while the service is Running, join(n) followed by join(n) returns
success both times, the second join leaves the service as the first one left
it, and the table of a reachable service afterwards holds exactly one
NetworkRecord for n. -/
theorem join_twice (s : Service) (n now1 now2 : Nat)
    (hreach : Reachable s) (hrun : s.state = ServiceState.Running) :
    (zts_join n now1 s).1 = Outcome.value 0 ∧
    (zts_join n now2 (zts_join n now1 s).2).1 = Outcome.value 0 ∧
    (zts_join n now2 (zts_join n now1 s).2).2 = (zts_join n now1 s).2 ∧
    ((zts_join n now2 (zts_join n now1 s).2).2.networks.filter
      (fun r => decide (r.networkId = n))).length = 1 := by
  have hgate : _zts_can_perform_service_operation s = true := by
    simp [_zts_can_perform_service_operation, hrun]
  have huniq : (networkIds s.networks).Nodup := (invariants_of_reachable s hreach).2.1
  have hcount : ∀ ns : List NetworkRecord,
      (ns.filter (fun r => decide (r.networkId = n))).length = (networkIds ns).count n := by
    intro ns
    induction ns with
    | nil => rfl
    | cons r rest ih =>
      by_cases hr : r.networkId = n
      · simp [networkIds, List.filter_cons, hr] at ih ⊢
        exact ih
      · simp [networkIds, List.filter_cons, hr, List.count_cons] at ih ⊢
        exact ih
  cases hfind : findNetwork n s.networks with
  | some r =>
    have h1 : zts_join n now1 s = (Outcome.value 0, s) := by
      simp [zts_join, hgate, hfind]
    have h2 : zts_join n now2 s = (Outcome.value 0, s) := by
      simp [zts_join, hgate, hfind]
    rw [h1]
    simp only [h2]
    refine ⟨trivial, trivial, trivial, ?_⟩
    rw [hcount]
    apply List.count_eq_one_of_mem huniq
    obtain ⟨hid, hmem⟩ := findNetwork_some n s.networks r hfind
    exact List.mem_map.mpr ⟨r, hmem, hid⟩
  | none =>
    have h1 : zts_join n now1 s = (Outcome.value 0,
        { s with networks := s.networks ++ [NetworkRecord.fresh n now1] }) := by
      simp [zts_join, hgate, hfind]
    have hfind2 : findNetwork n (s.networks ++ [NetworkRecord.fresh n now1]) =
        some (NetworkRecord.fresh n now1) := by
      unfold findNetwork at hfind ⊢
      rw [List.find?_append, hfind]
      simp [NetworkRecord.fresh]
    have h2 : zts_join n now2 { s with networks := s.networks ++ [NetworkRecord.fresh n now1] } =
        (Outcome.value 0, { s with networks := s.networks ++ [NetworkRecord.fresh n now1] }) := by
      simp [zts_join, _zts_can_perform_service_operation, hrun, hfind2]
    rw [h1]
    simp only [h2]
    refine ⟨trivial, trivial, trivial, ?_⟩
    rw [hcount]
    have hnot := not_mem_networkIds_of_findNetwork_none n s.networks hfind
    simp only [networkIds] at hnot
    simp [networkIds, List.count_append, List.count_eq_zero_of_not_mem hnot,
      NetworkRecord.fresh]

/-- Joining network 7 again on a service that has joined it already. -/
theorem join_twice_witness :
    Reachable sampleJoined ∧ sampleJoined.state = ServiceState.Running ∧
    (zts_join 7 200 (zts_join 7 150 sampleJoined).2).1 = Outcome.value 0 ∧
    (zts_join 7 200 (zts_join 7 150 sampleJoined).2).2 = (zts_join 7 150 sampleJoined).2 ∧
    ((zts_join 7 200 (zts_join 7 150 sampleJoined).2).2.networks.filter
      (fun r => decide (r.networkId = 7))).length = 1 :=
  ⟨⟨_, rfl⟩, by decide,
   (join_twice sampleJoined 7 150 200 ⟨_, rfl⟩ (by decide)).2.1,
   (join_twice sampleJoined 7 150 200 ⟨_, rfl⟩ (by decide)).2.2.1,
   (join_twice sampleJoined 7 150 200 ⟨_, rfl⟩ (by decide)).2.2.2⟩

/-! ## Addresses of a network -/

theorem firstOfFamily_eq_some (family : Int) (l : List sockaddr_storage) :
    ∀ (k i : Nat) (a : sockaddr_storage), firstOfFamily family l k = some (i, a) ↔
      ∃ m, i = k + m ∧ l[m]? = some a ∧ a.ss_family = family ∧
        ∀ j, j < m → ∀ b, l[j]? = some b → b.ss_family ≠ family := by
  induction l with
  | nil =>
    intro k i a
    simp [firstOfFamily]
  | cons x xs ih =>
    intro k i a
    by_cases hx : x.ss_family = family
    · simp only [firstOfFamily, hx, if_true, Option.some.injEq, Prod.mk.injEq]
      constructor
      · rintro ⟨rfl, rfl⟩
        exact ⟨0, rfl, List.getElem?_cons_zero, hx, fun j hj => absurd hj (Nat.not_lt_zero j)⟩
      · rintro ⟨m, hi, hm, _, hbefore⟩
        cases m with
        | zero =>
          simp only [List.getElem?_cons_zero, Option.some.injEq] at hm
          exact ⟨by omega, hm⟩
        | succ m => exact absurd hx (hbefore 0 (Nat.succ_pos m) x List.getElem?_cons_zero)
    · simp only [firstOfFamily, hx, if_false]
      rw [ih (k + 1) i a]
      constructor
      · rintro ⟨m, hi, hm, hfam, hbefore⟩
        refine ⟨m + 1, by omega, by simpa using hm, hfam, ?_⟩
        intro j hj b hb
        cases j with
        | zero =>
          simp only [List.getElem?_cons_zero, Option.some.injEq] at hb
          rw [← hb]; exact hx
        | succ j => exact hbefore j (by omega) b (by simpa using hb)
      · rintro ⟨m, hi, hm, hfam, hbefore⟩
        cases m with
        | zero =>
          simp only [List.getElem?_cons_zero, Option.some.injEq] at hm
          rw [← hm] at hfam
          exact absurd hfam hx
        | succ m =>
          refine ⟨m, by omega, by simpa using hm, hfam, ?_⟩
          intro j hj b hb
          exact hbefore (j + 1) (by omega) b (by simpa using hb)

theorem firstOfFamily_eq_none (family : Int) (l : List sockaddr_storage) :
    ∀ k : Nat, firstOfFamily family l k = none ↔ ∀ a ∈ l, a.ss_family ≠ family := by
  induction l with
  | nil => intro k; simp [firstOfFamily]
  | cons x xs ih =>
    intro k
    by_cases hx : x.ss_family = family
    · simp [firstOfFamily, hx]
    · simp [firstOfFamily, hx, ih (k + 1)]

/-- C8: for a joined network of a Running service and every address family,
getAddress succeeds with the address a exactly when a is the address of that
family with the smallest index in the address sequence of the network, fails
(with InvalidArgument, the -1 of the header) exactly when the sequence holds
no address of that family, does one of the two, and leaves the service
unchanged. -/
theorem get_address_first_of_family (s : Service) (nwid : Nat) (family : Int)
    (r : NetworkRecord) (hrun : s.state = ServiceState.Running)
    (hjoined : findNetwork nwid s.networks = some r) :
    (∀ a, (zts_get_address nwid family s).1 = (Outcome.value 0, some a) ↔
      ∃ i : Nat, r.addresses[i]? = some a ∧ a.ss_family = family ∧
        ∀ j : Nat, j < i → ∀ b : sockaddr_storage, r.addresses[j]? = some b →
          b.ss_family ≠ family) ∧
    ((zts_get_address nwid family s).1 = (Outcome.fail ErrorKind.InvalidArgument, none) ↔
      ∀ a ∈ r.addresses, a.ss_family ≠ family) ∧
    ((∃ a, (zts_get_address nwid family s).1 = (Outcome.value 0, some a)) ∨
      (zts_get_address nwid family s).1 = (Outcome.fail ErrorKind.InvalidArgument, none)) ∧
    ErrorKind.InvalidArgument.code? = some ZTS_ERR_INVALID_ARG ∧
    (zts_get_address nwid family s).2 = s := by
  have hgate : _zts_can_perform_service_operation s = true := by
    simp [_zts_can_perform_service_operation, hrun]
  cases hscan : firstOfFamily family r.addresses 0 with
  | none =>
    have hres : zts_get_address nwid family s =
        ((Outcome.fail ErrorKind.InvalidArgument, none), s) := by
      simp [zts_get_address, hgate, hjoined, hscan]
    have hall := (firstOfFamily_eq_none family r.addresses 0).mp hscan
    rw [hres]
    refine ⟨?_, ?_, Or.inr rfl, rfl, rfl⟩
    · intro a
      constructor
      · intro h; simp at h
      · rintro ⟨i, hi, hfam, _⟩
        exact absurd hfam (hall a (List.getElem?_mem hi))
    · exact ⟨fun _ => hall, fun _ => rfl⟩
  | some found =>
    obtain ⟨i, a0⟩ := found
    have hres : zts_get_address nwid family s = ((Outcome.value 0, some a0), s) := by
      simp [zts_get_address, hgate, hjoined, hscan]
    obtain ⟨m, hi, hm, hfam, hbefore⟩ := (firstOfFamily_eq_some family r.addresses 0 i a0).mp hscan
    rw [hres]
    refine ⟨?_, ?_, Or.inl ⟨a0, rfl⟩, rfl, rfl⟩
    · intro a
      constructor
      · intro h
        simp only [Prod.mk.injEq, Option.some.injEq, true_and] at h
        subst h
        exact ⟨m, hm, hfam, hbefore⟩
      · rintro ⟨k, hk, hkfam, hkbefore⟩
        have hmk : m = k := by
          rcases Nat.lt_trichotomy m k with hlt | heq | hgt
          · exact absurd hfam (hkbefore m hlt a0 hm)
          · exact heq
          · exact absurd hkfam (hbefore k hgt a hk)
        subst hmk
        rw [hm] at hk
        simp only [Option.some.injEq] at hk
        rw [hk]
    · constructor
      · intro h; simp at h
      · intro hall
        exact absurd hfam (hall a0 (List.getElem?_mem hm))

/-- Network 7 was assigned an IPv6 address first, then two IPv4 addresses:
getAddress for AF_INET gives the first IPv4 address, the one at index 1. -/
theorem get_address_first_of_family_witness :
    sampleJoined.state = ServiceState.Running ∧
    (∃ r, findNetwork 7 sampleJoined.networks = some r ∧
      r.addresses = [sampleAddr6, sampleAddr4, sampleAddr4b]) ∧
    (zts_get_address 7 ZTS_AF_INET sampleJoined).1 = (Outcome.value 0, some sampleAddr4) ∧
    (zts_get_address 7 ZTS_AF_INET sampleJoined).2 = sampleJoined :=
  ⟨by decide, ⟨_, rfl, rfl⟩,
   ((get_address_first_of_family sampleJoined 7 ZTS_AF_INET
      { networkId := 7, joinedAt := 100, ready := false,
        addresses := [sampleAddr6, sampleAddr4, sampleAddr4b], routes := [], mtu := 0 }
      (by decide) rfl).1 sampleAddr4).mpr
     ⟨1, rfl, rfl, by decide⟩,
   (get_address_first_of_family sampleJoined 7 ZTS_AF_INET
      { networkId := 7, joinedAt := 100, ready := false,
        addresses := [sampleAddr6, sampleAddr4, sampleAddr4b], routes := [], mtu := 0 }
      (by decide) rfl).2.2.2.2⟩

/-! ## Capacity of a network details record -/

/-- C9: the addr array of zts_network_details has ZTS_MAX_ASSIGNED_ADDRESSES =
16 slots and the routes array ZTS_MAX_NETWORK_ROUTES = 32 slots; every record
of the membership table of a reachable service holds at most 16 addresses and
at most 32 routes, and every details record that getNetworkDetails hands out
has 0 <= num_addresses <= 16 and num_routes <= 32, the counted addresses and
routes being the ones in the first slots of the two arrays. -/
theorem network_details_within_capacity (s : Service) (nwid : Nat) (d : zts_network_details)
    (hreach : Reachable s)
    (hdetails : (zts_get_network_details nwid s).1 = (Outcome.value 0, some d)) :
    (ZTS_MAX_ASSIGNED_ADDRESSES = 16 ∧ ZTS_MAX_NETWORK_ROUTES = 32) ∧
    (Fintype.card (Fin ZTS_MAX_ASSIGNED_ADDRESSES) = 16 ∧
      Fintype.card (Fin ZTS_MAX_NETWORK_ROUTES) = 32) ∧
    (∀ r ∈ s.networks, r.addresses.length ≤ 16 ∧ r.routes.length ≤ 32) ∧
    (0 ≤ d.num_addresses ∧ d.num_addresses ≤ 16 ∧ d.num_routes ≤ 32) ∧
    (∃ r ∈ s.networks, r.networkId = nwid ∧ d.nwid = nwid ∧
      d.num_addresses = (r.addresses.length : Int) ∧ d.num_routes = r.routes.length ∧
      (∀ i : Fin ZTS_MAX_ASSIGNED_ADDRESSES, i.val < r.addresses.length →
        r.addresses[i.val]? = some (d.addr i)) ∧
      (∀ i : Fin ZTS_MAX_NETWORK_ROUTES, i.val < r.routes.length →
        r.routes[i.val]? = some (d.routes i))) := by
  have hbound := (invariants_of_reachable s hreach).2.2
  unfold BoundedRecords at hbound
  simp only [ZTS_MAX_ASSIGNED_ADDRESSES, ZTS_MAX_NETWORK_ROUTES] at hbound
  have hfound : ∃ r, findNetwork nwid s.networks = some r ∧ d = r.details := by
    unfold zts_get_network_details at hdetails
    split at hdetails
    · split at hdetails
      · rename_i r hr
        simp only [Prod.mk.injEq, Option.some.injEq, true_and] at hdetails
        exact ⟨r, hr, hdetails.symm⟩
      · simp at hdetails
    · simp at hdetails
  obtain ⟨r, hr, rfl⟩ := hfound
  obtain ⟨hid, hmem⟩ := findNetwork_some nwid s.networks r hr
  have hb := hbound r hmem
  refine ⟨⟨rfl, rfl⟩, ⟨by simp [ZTS_MAX_ASSIGNED_ADDRESSES], by simp [ZTS_MAX_NETWORK_ROUTES]⟩,
    hbound, ?_, ⟨r, hmem, hid, hid, rfl, rfl, ?_, ?_⟩⟩
  · simp only [NetworkRecord.details]
    refine ⟨by omega, by omega, hb.2⟩
  · intro i hi
    simp [NetworkRecord.details, List.getD, List.getElem?_eq_getElem hi]
  · intro i hi
    simp [NetworkRecord.details, List.getD, List.getElem?_eq_getElem hi]

/-- The details of network 7, which was assigned three addresses. -/
theorem network_details_within_capacity_witness :
    Reachable sampleJoined ∧
    (zts_get_network_details 7 sampleJoined).1 =
      (Outcome.value 0, some (NetworkRecord.details
        { networkId := 7, joinedAt := 100, ready := false,
          addresses := [sampleAddr6, sampleAddr4, sampleAddr4b], routes := [], mtu := 0 })) ∧
    (NetworkRecord.details
        { networkId := 7, joinedAt := 100, ready := false,
          addresses := [sampleAddr6, sampleAddr4, sampleAddr4b], routes := [],
          mtu := 0 }).num_addresses ≤ 16 :=
  ⟨⟨_, rfl⟩, rfl,
   (network_details_within_capacity sampleJoined 7
      (NetworkRecord.details
        { networkId := 7, joinedAt := 100, ready := false,
          addresses := [sampleAddr6, sampleAddr4, sampleAddr4b], routes := [], mtu := 0 })
      ⟨_, rfl⟩ rfl).2.2.2.1.2.1⟩

/-! ## Handle uniqueness and reuse -/

theorem occupied_step (h : Nat) (op : Op) (s : Service)
    (hocc : h ∈ handles s.sockets ∨ s.state = ServiceState.Freed) :
    h ∈ handles (op.step s).2.sockets ∨ (op.step s).2.state = ServiceState.Freed := by
  rcases hocc with hmem | hfreed
  · rcases handles_step op s with h1 | h1 | h1
    · rw [h1]; exact Or.inl hmem
    · rw [h1]; exact Or.inl (List.mem_append_left _ hmem)
    · exact Or.inr h1.2
  · rw [step_of_freed op s hfreed]
    exact Or.inr hfreed

theorem occupied_deliver (h : Nat) (g : Signal) (s : Service)
    (hg : g ≠ Signal.teardownComplete h)
    (hocc : h ∈ handles s.sockets ∨ s.state = ServiceState.Freed) :
    h ∈ handles (g.deliver s).sockets ∨ (g.deliver s).state = ServiceState.Freed := by
  rcases hocc with hmem | hfreed
  · left
    rcases handles_deliver g s with h1 | ⟨k, hk, h1⟩
    · rw [h1]; exact hmem
    · rw [h1]
      have hne : h ≠ k := by
        intro hhk
        exact hg (by rw [hk, hhk])
      simp only [handles, List.mem_map] at hmem ⊢
      obtain ⟨v, hv, hvh⟩ := hmem
      refine ⟨v, List.mem_filter.mpr ⟨hv, ?_⟩, hvh⟩
      have hvk : v.handle ≠ k := by rw [hvh]; exact hne
      simp [hvk]
  · right
    rw [state_deliver]
    exact hfreed

theorem occupied_run (h : Nat) (steps : List Action)
    (hsteps : Action.signal (Signal.teardownComplete h) ∉ steps) :
    ∀ s : Service, (h ∈ handles s.sockets ∨ s.state = ServiceState.Freed) →
      (h ∈ handles (run steps s).sockets ∨ (run steps s).state = ServiceState.Freed) := by
  induction steps with
  | nil => intro s hs; exact hs
  | cons a rest ih =>
    intro s hs
    simp only [run]
    have hrest : Action.signal (Signal.teardownComplete h) ∉ rest :=
      fun hm => hsteps (List.mem_cons_of_mem _ hm)
    apply ih hrest
    cases a with
    | call op => exact occupied_step h op s hs
    | signal g =>
      apply occupied_deliver h g s _ hs
      intro hg
      exact hsteps (by rw [hg]; exact List.mem_cons_self _ _)

theorem socket_avoids_occupied (h : Nat) (family type protocol : Int) (s : Service)
    (hocc : h ∈ handles s.sockets ∨ s.state = ServiceState.Freed) :
    (zts_socket family type protocol s).1 ≠ Outcome.value h := by
  rcases hocc with hmem | hfreed
  · unfold zts_socket
    split
    · split
      · intro heq
        simp only [Outcome.value.injEq] at heq
        exact freshHandle_not_mem s.sockets (by rw [heq]; exact hmem)
      · simp
    · simp
  · simp [zts_socket, _zts_can_perform_service_operation, hfreed]

theorem accept_avoids_occupied (h : Nat) (fd : Int) (arrival : Option sockaddr_storage)
    (s : Service) (hocc : h ∈ handles s.sockets ∨ s.state = ServiceState.Freed) :
    (zts_accept fd arrival s).1 ≠ Outcome.value h := by
  rcases hocc with hmem | hfreed
  · have hfresh : Outcome.value (freshHandle s.sockets) ≠ Outcome.value h := by
      intro heq
      simp only [Outcome.value.injEq] at heq
      exact freshHandle_not_mem s.sockets (by rw [heq]; exact hmem)
    unfold zts_accept
    (repeat' split) <;> first | exact hfresh | simp
  · simp [zts_accept, _zts_can_perform_service_operation, hfreed]

/-- C5: in every reachable state of the virtual socket table no two entries
share a handle (so no two live entries do), and a handle released by close is
not handed out again, neither by socket nor by accept, after any sequence of
calls and signals in which the teardown of its previous occupant has not been
confirmed. -/
theorem handle_unique_and_not_reused (s : Service) (fd : Int) (v : VirtualSocket)
    (steps : List Action) (hreach : Reachable s) :
    UniqueHandles s ∧
    (∀ a ∈ s.sockets, ∀ b ∈ s.sockets, a.handle = b.handle → a = b) ∧
    (s.state = ServiceState.Running → findOpen fd s.sockets = some v →
      Action.signal (Signal.teardownComplete v.handle) ∉ steps →
      (zts_close fd s).1 = Outcome.value 0 ∧
      (∀ family type protocol : Int,
        (zts_socket family type protocol (run steps (zts_close fd s).2)).1 ≠
          Outcome.value v.handle) ∧
      (∀ (lfd : Int) (arrival : Option sockaddr_storage),
        (zts_accept lfd arrival (run steps (zts_close fd s).2)).1 ≠ Outcome.value v.handle)) := by
  have huniq := (invariants_of_reachable s hreach).1
  refine ⟨huniq, ?_, ?_⟩
  · intro a ha b hb hab
    exact List.inj_on_of_nodup_map huniq ha hb hab
  · intro hrun hopen hsteps
    have hgate : _zts_can_perform_service_operation s = true := by
      simp [_zts_can_perform_service_operation, hrun]
    have hfirst : zts_close fd s = (Outcome.value 0,
        { s with sockets := (updateSocket v.handle
            (fun w => { w with state := SocketState.Closing }) s.sockets) }) := by
      simp [zts_close, hgate, hopen]
    have hmem : v.handle ∈ handles (zts_close fd s).2.sockets := by
      rw [hfirst]
      simp only [handles_updateSocket]
      exact List.mem_map.mpr ⟨v, (findOpen_some fd s.sockets v hopen).2.2, rfl⟩
    have hocc := occupied_run v.handle steps hsteps (zts_close fd s).2 (Or.inl hmem)
    refine ⟨by rw [hfirst], ?_, ?_⟩
    · intro family type protocol
      exact socket_avoids_occupied v.handle family type protocol _ hocc
    · intro lfd arrival
      exact accept_avoids_occupied v.handle lfd arrival _ hocc

/-- Handle 0 is closed; while its teardown is not confirmed the next sockets
get the handles 1 and 2, and once it is confirmed the slot 0 is handed out
again. -/
theorem handle_unique_and_not_reused_witness :
    Reachable sampleOneSocket ∧ UniqueHandles sampleOneSocket ∧
    findOpen 0 sampleOneSocket.sockets = some sampleSocket0 ∧
    Action.signal (Signal.teardownComplete sampleSocket0.handle) ∉ sampleStepsNoTeardown ∧
    (zts_socket ZTS_AF_INET ZTS_SOCK_STREAM 0
      (run sampleStepsNoTeardown (zts_close 0 sampleOneSocket).2)).1 ≠
        Outcome.value sampleSocket0.handle ∧
    (zts_socket ZTS_AF_INET ZTS_SOCK_STREAM 0
      (run sampleStepsNoTeardown (zts_close 0 sampleOneSocket).2)).1 = Outcome.value 2 ∧
    (zts_socket ZTS_AF_INET ZTS_SOCK_STREAM 0
      (run [Action.signal (Signal.teardownComplete 0)] (zts_close 0 sampleOneSocket).2)).1 =
        Outcome.value 0 :=
  ⟨⟨_, rfl⟩,
   (handle_unique_and_not_reused sampleOneSocket 0 sampleSocket0 sampleStepsNoTeardown
      ⟨_, rfl⟩).1,
   rfl,
   by simp [sampleStepsNoTeardown, sampleSocket0, VirtualSocket.create],
   ((handle_unique_and_not_reused sampleOneSocket 0 sampleSocket0 sampleStepsNoTeardown
      ⟨_, rfl⟩).2.2 (by decide) rfl
      (by simp [sampleStepsNoTeardown, sampleSocket0, VirtualSocket.create])).2.1
      ZTS_AF_INET ZTS_SOCK_STREAM 0,
   by decide, by decide⟩

/-! ## Event categories, flags and option names -/

/-- C11: every event code other than ZTS_EVENT_NONE belongs to exactly one of
the five categories, the categories lie in the pairwise disjoint ranges node
0..17, network 32..39, stack 48..49, interface 64..71, peer 96..98, and the
category of a code c is read off c div 16 (0 or 1: node, 2: network, 3: stack,
4: interface, 6: peer); ZTS_EVENT_NONE is in no category. -/
theorem event_category_of_code :
    eventCodes = nodeEvents ++ networkEvents ++ stackEvents ++ netifEvents ++ peerEvents ∧
    (∀ c ∈ eventCodes, ∃ k : EventCategory, c ∈ k.codes) ∧
    (∀ k1 k2 : EventCategory, ∀ c ∈ k1.codes, c ∈ k2.codes → k1 = k2) ∧
    (∀ k : EventCategory, ∀ c ∈ k.codes, k.range.1 ≤ c ∧ c ≤ k.range.2) ∧
    (∀ k1 k2 : EventCategory, k1 ≠ k2 → k1.range.2 < k2.range.1 ∨ k2.range.2 < k1.range.1) ∧
    (∀ k : EventCategory, ∀ c ∈ k.codes, categoryOfQuotient (c / 16) = some k) ∧
    (∀ k : EventCategory, ZTS_EVENT_NONE ∉ k.codes) := by
  refine ⟨rfl, by decide, by decide, by decide, by decide, by decide, by decide⟩

theorem orFlags_and (F : Nat) (S : List Nat) :
    orFlags S &&& F ≠ 0 ↔ ∃ x ∈ S, x &&& F ≠ 0 := by
  induction S with
  | nil => simp [orFlags]
  | cons x rest ih =>
    simp only [orFlags, Nat.and_distrib_right, List.exists_mem_cons_iff]
    rw [← ih]
    constructor
    · intro h
      by_cases hx : x &&& F = 0
      · right
        intro hr
        apply h
        rw [hx, hr]
        rfl
      · exact Or.inl hx
    · intro h hzero
      have hboth : x &&& F = 0 ∧ orFlags rest &&& F = 0 := by
        constructor
        · apply Nat.eq_zero_of_le_zero
          rw [← hzero]
          exact Nat.le_of_testBit (fun i hi => by simp [hi])
        · apply Nat.eq_zero_of_le_zero
          rw [← hzero]
          exact Nat.le_of_testBit (fun i hi => by simp [hi])
      rcases h with h | h
      · exact h hboth.1
      · exact h hboth.2

/-- C12: the five send/recv flags are single bits, pairwise disjoint, and for
every set S of these flags and every flag F of the five, the bitwise OR of S
has a nonzero AND with F if and only if F is in S; so peek and don't-wait can
be requested together and tested independently. -/
theorem msg_flags_tested_independently (S : List Nat) (F : Nat)
    (hS : ∀ x ∈ S, x ∈ msgFlags) (hF : F ∈ msgFlags) :
    (orFlags S &&& F ≠ 0 ↔ F ∈ S) ∧
    msgFlags = [2 ^ 0, 2 ^ 1, 2 ^ 2, 2 ^ 3, 2 ^ 4] ∧
    (∀ a ∈ msgFlags, ∀ b ∈ msgFlags, a ≠ b → a &&& b = 0) := by
  have hpair : ∀ a ∈ msgFlags, ∀ b ∈ msgFlags, (a &&& b ≠ 0 ↔ a = b) := by decide
  refine ⟨?_, by decide, by decide⟩
  rw [orFlags_and]
  constructor
  · rintro ⟨x, hx, hne⟩
    have := (hpair x (hS x hx) F hF).mp hne
    rw [← this]
    exact hx
  · intro hmem
    exact ⟨F, hmem, (hpair F hF F hF).mpr rfl⟩

/-- Peek and don't-wait requested together: both are found, the other three
flags are not. -/
theorem msg_flags_tested_independently_witness :
    (orFlags [ZTS_MSG_PEEK, ZTS_MSG_DONTWAIT] &&& ZTS_MSG_DONTWAIT ≠ 0 ↔
      ZTS_MSG_DONTWAIT ∈ [ZTS_MSG_PEEK, ZTS_MSG_DONTWAIT]) ∧
    orFlags [ZTS_MSG_PEEK, ZTS_MSG_DONTWAIT] = 9 ∧
    orFlags [ZTS_MSG_PEEK, ZTS_MSG_DONTWAIT] &&& ZTS_MSG_PEEK = 1 ∧
    orFlags [ZTS_MSG_PEEK, ZTS_MSG_DONTWAIT] &&& ZTS_MSG_DONTWAIT = 8 ∧
    orFlags [ZTS_MSG_PEEK, ZTS_MSG_DONTWAIT] &&& ZTS_MSG_OOB = 0 :=
  ⟨(msg_flags_tested_independently [ZTS_MSG_PEEK, ZTS_MSG_DONTWAIT] ZTS_MSG_DONTWAIT
      (by decide) (by decide)).1,
   by decide, by decide, by decide, by decide⟩

/-- C13: within each option level the option names are pairwise distinct
(ZTS_SO_DONTLINGER, the complement of ZTS_SO_LINGER, is -129 and differs from
every other ZTS_SO_* name), the four level constants are pairwise distinct,
and so the pairs (level, optname) are pairwise distinct: a pair is a unique
key of the per-option table. -/
theorem option_names_distinct_per_level :
    socketOptionNames.Nodup ∧ ipOptionNames.Nodup ∧ tcpOptionNames.Nodup ∧
    ipv6OptionNames.Nodup ∧ optionLevels.Nodup ∧
    ZTS_SO_DONTLINGER = -129 ∧
    socketOptionNames.length = 21 ∧
    optionKeys.Nodup ∧ optionKeys.length = 30 := by
  refine ⟨by decide, by decide, by decide, by decide, by decide, by decide, rfl, by decide, rfl⟩

/-! ## Descriptor-set macros -/

theorem toCInt_congr (n : Int) (k : Int) : toCInt (toCInt n - k) = toCInt (n - k) := by
  unfold toCInt
  omega

theorem fdInRange_iff (o : LwipOpts) (n : Int) :
    fdInRange o n = true ↔ 0 ≤ fdOffset o n ∧ fdOffset o n < (o.MEMP_NUM_NETCONN : Int) := by
  unfold fdInRange
  rw [toCInt_congr]
  simp only [Bool.and_eq_true, decide_eq_true_eq, fdOffset]
  constructor
  · rintro ⟨h1, h2⟩; exact ⟨h2, h1⟩
  · rintro ⟨h1, h2⟩; exact ⟨h2, h1⟩

theorem fdOffset_of_int (o : LwipOpts) (n : Int)
    (hfit : o.LWIP_SOCKET_OFFSET + o.MEMP_NUM_NETCONN ≤ 2147483648)
    (hn : -2147483648 ≤ n ∧ n < 2147483648) :
    (0 ≤ fdOffset o n ∧ fdOffset o n < (o.MEMP_NUM_NETCONN : Int)) ↔
    (0 ≤ n - (o.LWIP_SOCKET_OFFSET : Int) ∧
      n - (o.LWIP_SOCKET_OFFSET : Int) < (o.MEMP_NUM_NETCONN : Int)) := by
  unfold fdOffset toCInt
  omega

theorem fdOffset_eq (o : LwipOpts) (n : Int)
    (hfit : o.LWIP_SOCKET_OFFSET + o.MEMP_NUM_NETCONN ≤ 2147483648)
    (hr : 0 ≤ n - (o.LWIP_SOCKET_OFFSET : Int) ∧
      n - (o.LWIP_SOCKET_OFFSET : Int) < (o.MEMP_NUM_NETCONN : Int)) :
    fdOffset o n = n - (o.LWIP_SOCKET_OFFSET : Int) := by
  unfold fdOffset toCInt
  omega

/-- Under the guard the byte index and the mask are those of the natural
number `k = (n) - LWIP_SOCKET_OFFSET`. -/
theorem fd_index_and_bit (o : LwipOpts) (n : Int) (h : fdInRange o n = true) :
    ∃ k : Nat, fdOffset o n = (k : Int) ∧ k < o.MEMP_NUM_NETCONN ∧
      fdByteIndex o n = ((k / 8 : Nat) : Int) ∧ fdBit o n = 2 ^ (k % 8) ∧
      k / 8 < fd_set.size o := by
  obtain ⟨h0, h1⟩ := (fdInRange_iff o n).mp h
  refine ⟨(fdOffset o n).toNat, (Int.toNat_of_nonneg h0).symm, by omega, ?_, ?_, ?_⟩
  · unfold fdByteIndex
    rw [Int.tdiv_eq_ediv h0 (by decide)]
    omega
  · unfold fdBit
    have hk : fdOffset o n = ((fdOffset o n).toNat : Int) := (Int.toNat_of_nonneg h0).symm
    rw [hk]
    have : Int.land (((fdOffset o n).toNat : Nat) : Int) 7 = (((fdOffset o n).toNat &&& 7 : Nat) : Int) := rfl
    rw [this, Int.toNat_ofNat, Nat.shiftLeft_eq, Nat.one_mul]
    congr 1
    exact Nat.and_pow_two_sub_one_eq_mod _ 3
  · unfold fd_set.size ZTS_FD_SETSIZE
    omega

theorem and_bit_of_or (b j : Nat) (hj : j < 8) :
    ((b ||| 2 ^ j) % 256) &&& 2 ^ j = 2 ^ j := by
  apply Nat.eq_of_testBit_eq
  intro i
  have h256 : (256 : Nat) = 2 ^ 8 := rfl
  rw [h256, Nat.testBit_and, Nat.testBit_mod_two_pow, Nat.testBit_or, Nat.testBit_two_pow]
  by_cases hi : j = i
  · subst hi; simp [hj]
  · simp [hi]

theorem and_bit_of_ldiff (b j : Nat) :
    ((Nat.ldiff b (2 ^ j)) % 256) &&& 2 ^ j = 0 := by
  apply Nat.eq_of_testBit_eq
  intro i
  have h256 : (256 : Nat) = 2 ^ 8 := rfl
  rw [h256, Nat.testBit_and, Nat.testBit_mod_two_pow, Nat.testBit_ldiff, Nat.testBit_two_pow]
  by_cases hi : j = i
  · subst hi; simp
  · simp [hi]

theorem and_other_bit_of_or (b j l : Nat) (hl : l < 8) (hne : l ≠ j) :
    ((b ||| 2 ^ j) % 256) &&& 2 ^ l = b &&& 2 ^ l := by
  apply Nat.eq_of_testBit_eq
  intro i
  have h256 : (256 : Nat) = 2 ^ 8 := rfl
  rw [h256, Nat.testBit_and, Nat.testBit_mod_two_pow, Nat.testBit_or, Nat.testBit_and,
    Nat.testBit_two_pow, Nat.testBit_two_pow]
  by_cases hi : l = i
  · subst hi
    have : ¬ j = l := fun h => hne h.symm
    simp [hl, this]
  · simp [hi]

theorem and_other_bit_of_ldiff (b j l : Nat) (hl : l < 8) (hne : l ≠ j) :
    ((Nat.ldiff b (2 ^ j)) % 256) &&& 2 ^ l = b &&& 2 ^ l := by
  apply Nat.eq_of_testBit_eq
  intro i
  have h256 : (256 : Nat) = 2 ^ 8 := rfl
  rw [h256, Nat.testBit_and, Nat.testBit_mod_two_pow, Nat.testBit_ldiff, Nat.testBit_and,
    Nat.testBit_two_pow, Nat.testBit_two_pow]
  by_cases hi : l = i
  · subst hi
    have : ¬ j = l := fun h => hne h.symm
    simp [hl, this]
  · simp [hi]

/-- The three macros on a set of the declared size, for a descriptor that
passes the guard: `k` is the offset of the descriptor and `b` the byte the
macros work on. -/
theorem fd_macros_in_range (o : LwipOpts) (n : Int) (p : fd_set)
    (hwf : p.WellFormed o) (h : fdInRange o n = true) :
    ∃ k b : Nat, fdOffset o n = (k : Int) ∧ k < o.MEMP_NUM_NETCONN ∧ k / 8 < fd_set.size o ∧
      p.fd_bits[k / 8]? = some b ∧
      ZTS_FD_SET o n p = some { fd_bits := p.fd_bits.set (k / 8) ((b ||| 2 ^ (k % 8)) % 256) } ∧
      ZTS_FD_CLR o n p =
        some { fd_bits := p.fd_bits.set (k / 8) ((Nat.ldiff b (2 ^ (k % 8))) % 256) } ∧
      ZTS_FD_ISSET o n p = some ((b &&& 2 ^ (k % 8) : Nat) : Int) := by
  obtain ⟨k, hk, hlt, hidx, hbit, hsize⟩ := fd_index_and_bit o n h
  have hlen : k / 8 < p.fd_bits.length := by rw [hwf]; exact hsize
  refine ⟨k, p.fd_bits[k / 8], hk, hlt, hsize, List.getElem?_eq_getElem hlen, ?_, ?_, ?_⟩
  · unfold ZTS_FD_SET
    rw [if_pos h, hidx, hbit]
    simp only [fd_set.read, fd_set.write, Int.toNat_ofNat, Int.ofNat_nonneg, if_true,
      List.getElem?_eq_getElem hlen, hlen, and_self]
    have : Int.lor ((p.fd_bits[k / 8] : Nat) : Int) ((2 ^ (k % 8) : Nat) : Int) =
        ((p.fd_bits[k / 8] ||| 2 ^ (k % 8) : Nat) : Int) := rfl
    rw [this]
    congr 2
  · unfold ZTS_FD_CLR
    rw [if_pos h, hidx, hbit]
    simp only [fd_set.read, fd_set.write, Int.toNat_ofNat, Int.ofNat_nonneg, if_true,
      List.getElem?_eq_getElem hlen, hlen, and_self]
    have : Int.land ((p.fd_bits[k / 8] : Nat) : Int) (Int.not ((2 ^ (k % 8) : Nat) : Int)) =
        ((Nat.ldiff p.fd_bits[k / 8] (2 ^ (k % 8)) : Nat) : Int) := rfl
    rw [this]
    congr 2
  · unfold ZTS_FD_ISSET
    rw [if_pos h, hidx, hbit]
    simp only [fd_set.read, Int.toNat_ofNat, Int.ofNat_nonneg, if_true,
      List.getElem?_eq_getElem hlen]
    rfl

theorem fd_macros_out_of_range (o : LwipOpts) (n : Int) (p : fd_set)
    (h : fdInRange o n = false) :
    ZTS_FD_SET o n p = some p ∧ ZTS_FD_CLR o n p = some p ∧ ZTS_FD_ISSET o n p = some 0 := by
  simp [ZTS_FD_SET, ZTS_FD_CLR, ZTS_FD_ISSET, h]

/-- C14, amended: for a descriptor argument n of type int, on a descriptor set
of (ZTS_FD_SETSIZE+7)/8 bytes and with descriptors that fit in an int, the
macros ZTS_FD_SET, ZTS_FD_CLR and ZTS_FD_ISSET never access a byte outside
fd_bits; for an int n with 0 <= n - LWIP_SOCKET_OFFSET < MEMP_NUM_NETCONN the
guard holds and the byte index (n - LWIP_SOCKET_OFFSET)/8 is in bounds, and
for every other int n no byte is accessed: ZTS_FD_SET and ZTS_FD_CLR leave
the set unchanged and ZTS_FD_ISSET yields 0. -/
theorem fd_macros_stay_in_bounds (o : LwipOpts) (n : Int) (p : fd_set)
    (hwf : p.WellFormed o)
    (hfit : o.LWIP_SOCKET_OFFSET + o.MEMP_NUM_NETCONN ≤ 2147483648)
    (hn : -2147483648 ≤ n ∧ n < 2147483648) :
    ((ZTS_FD_SET o n p).isSome = true ∧ (ZTS_FD_CLR o n p).isSome = true ∧
      (ZTS_FD_ISSET o n p).isSome = true) ∧
    ((0 ≤ n - (o.LWIP_SOCKET_OFFSET : Int) ∧
        n - (o.LWIP_SOCKET_OFFSET : Int) < (o.MEMP_NUM_NETCONN : Int)) →
      fdInRange o n = true ∧
      fdByteIndex o n = (n - (o.LWIP_SOCKET_OFFSET : Int)) / 8 ∧
      0 ≤ fdByteIndex o n ∧ fdByteIndex o n < (fd_set.size o : Int) ∧
      (p.read (fdByteIndex o n)).isSome = true) ∧
    (¬ (0 ≤ n - (o.LWIP_SOCKET_OFFSET : Int) ∧
        n - (o.LWIP_SOCKET_OFFSET : Int) < (o.MEMP_NUM_NETCONN : Int)) →
      fdInRange o n = false ∧
      ZTS_FD_SET o n p = some p ∧ ZTS_FD_CLR o n p = some p ∧ ZTS_FD_ISSET o n p = some 0) := by
  have hguard := (fdInRange_iff o n).trans (fdOffset_of_int o n hfit hn)
  refine ⟨?_, ?_, ?_⟩
  · cases h : fdInRange o n with
    | true =>
      obtain ⟨k, b, _, _, _, _, h1, h2, h3⟩ := fd_macros_in_range o n p hwf h
      simp [h1, h2, h3]
    | false =>
      obtain ⟨h1, h2, h3⟩ := fd_macros_out_of_range o n p h
      simp [h1, h2, h3]
  · intro hr
    have h := hguard.mpr hr
    obtain ⟨k, b, hk, _, hsize, hb, _, _, _⟩ := fd_macros_in_range o n p hwf h
    have hoff := fdOffset_eq o n hfit hr
    have hidx : fdByteIndex o n = ((k / 8 : Nat) : Int) := by
      unfold fdByteIndex
      rw [hk, Int.tdiv_eq_ediv (Int.ofNat_nonneg k) (by decide)]
      omega
    refine ⟨h, ?_, ?_, ?_, ?_⟩
    · rw [hidx, ← hoff, hk]; omega
    · rw [hidx]; omega
    · rw [hidx]; omega
    · rw [hidx]
      unfold fd_set.read
      rw [if_pos (Int.ofNat_nonneg _), Int.toNat_ofNat, hb]
      rfl
  · intro hr
    have h : fdInRange o n = false := by
      cases hc : fdInRange o n with
      | true => exact absurd (hguard.mp hc) hr
      | false => rfl
    exact ⟨h, fd_macros_out_of_range o n p h⟩

/-- C15: for a descriptor set p of the declared size and an int n with
0 <= n - LWIP_SOCKET_OFFSET < MEMP_NUM_NETCONN, ZTS_FD_ISSET(n, p) right after
ZTS_FD_SET(n, p) is 1 << ((n - LWIP_SOCKET_OFFSET) & 7), which is nonzero (and
is 1 only when that shift count is 0), and right after ZTS_FD_CLR(n, p) it is
0. -/
theorem fd_isset_after_set_and_clr (o : LwipOpts) (n : Int) (p : fd_set)
    (hwf : p.WellFormed o)
    (hfit : o.LWIP_SOCKET_OFFSET + o.MEMP_NUM_NETCONN ≤ 2147483648)
    (hr : 0 ≤ n - (o.LWIP_SOCKET_OFFSET : Int) ∧
      n - (o.LWIP_SOCKET_OFFSET : Int) < (o.MEMP_NUM_NETCONN : Int)) :
    (∃ q, ZTS_FD_SET o n p = some q ∧ q.WellFormed o ∧
      ZTS_FD_ISSET o n q =
        some ((2 ^ ((n - (o.LWIP_SOCKET_OFFSET : Int)) % 8).toNat : Nat) : Int) ∧
      ZTS_FD_ISSET o n q ≠ some 0 ∧
      (ZTS_FD_ISSET o n q = some 1 ↔ (n - (o.LWIP_SOCKET_OFFSET : Int)) % 8 = 0)) ∧
    (∃ q, ZTS_FD_CLR o n p = some q ∧ q.WellFormed o ∧ ZTS_FD_ISSET o n q = some 0) := by
  have hn : -2147483648 ≤ n ∧ n < 2147483648 := by omega
  have h := ((fdInRange_iff o n).trans (fdOffset_of_int o n hfit hn)).mpr hr
  obtain ⟨k, b, hk, hlt, hsize, hb, hset, hclr, _⟩ := fd_macros_in_range o n p hwf h
  have hoff := fdOffset_eq o n hfit hr
  have hlen : k / 8 < p.fd_bits.length := by rw [hwf]; exact hsize
  have hshift : ((n - (o.LWIP_SOCKET_OFFSET : Int)) % 8).toNat = k % 8 := by
    rw [← hoff, hk]; omega
  have hj : k % 8 < 8 := Nat.mod_lt _ (by decide)
  constructor
  · have hq : fd_set.WellFormed o
        { fd_bits := p.fd_bits.set (k / 8) ((b ||| 2 ^ (k % 8)) % 256) } := by
      simp only [fd_set.WellFormed, List.length_set]; exact hwf
    obtain ⟨k2, b2, hk2, _, _, hb2, _, _, hisset⟩ := fd_macros_in_range o n _ hq h
    have hkk : k2 = k := by
      have : (k2 : Int) = (k : Int) := by rw [← hk2, hk]
      exact Int.ofNat_inj.mp this
    subst hkk
    simp only [List.getElem?_set_self hlen, Option.some.injEq] at hb2
    have hval : ZTS_FD_ISSET o n { fd_bits := p.fd_bits.set (k2 / 8) ((b ||| 2 ^ (k2 % 8)) % 256) } =
        some ((2 ^ (k2 % 8) : Nat) : Int) := by
      rw [hisset, ← hb2, and_bit_of_or b (k2 % 8) hj]
    refine ⟨_, hset, hq, ?_, ?_, ?_⟩
    · rw [hval, hshift]
    · rw [hval]
      intro hz
      simp only [Option.some.injEq] at hz
      have hpos : 0 < 2 ^ (k2 % 8) := Nat.pos_pow_of_pos _ (by decide)
      omega
    · rw [hval]
      simp only [Option.some.injEq]
      constructor
      · intro h1
        have h1n : 2 ^ (k2 % 8) = 1 := by exact_mod_cast h1
        have : k2 % 8 = 0 := by
          rcases Nat.eq_zero_or_pos (k2 % 8) with hz | hp
          · exact hz
          · have := Nat.one_lt_two_pow (Nat.pos_iff_ne_zero.mp hp)
            omega
        omega
      · intro h0
        have : k2 % 8 = 0 := by omega
        rw [this]
        rfl
  · have hq : fd_set.WellFormed o
        { fd_bits := p.fd_bits.set (k / 8) ((Nat.ldiff b (2 ^ (k % 8))) % 256) } := by
      simp only [fd_set.WellFormed, List.length_set]; exact hwf
    obtain ⟨k2, b2, hk2, _, _, hb2, _, _, hisset⟩ := fd_macros_in_range o n _ hq h
    have hkk : k2 = k := by
      have : (k2 : Int) = (k : Int) := by rw [← hk2, hk]
      exact Int.ofNat_inj.mp this
    subst hkk
    simp only [List.getElem?_set_self hlen, Option.some.injEq] at hb2
    refine ⟨_, hclr, hq, ?_⟩
    rw [hisset, ← hb2, and_bit_of_ldiff]
    rfl

theorem isset_of_byte (o : LwipOpts) (m : Int) (q : fd_set) (hq : q.WellFormed o)
    (h : fdInRange o m = true) (k : Nat) (hk : fdOffset o m = (k : Int)) (b : Nat)
    (hb : q.fd_bits[k / 8]? = some b) :
    ZTS_FD_ISSET o m q = some ((b &&& 2 ^ (k % 8) : Nat) : Int) := by
  obtain ⟨k2, b2, hk2, _, _, hb2, _, _, hisset⟩ := fd_macros_in_range o m q hq h
  have hkk : k2 = k := by
    have : (k2 : Int) = (k : Int) := by rw [← hk2, hk]
    exact Int.ofNat_inj.mp this
  subst hkk
  rw [hb] at hb2
  simp only [Option.some.injEq] at hb2
  rw [hisset, hb2]

theorem isset_frame (o : LwipOpts) (n m : Int) (p : fd_set) (hwf : p.WellFormed o)
    (hfit : o.LWIP_SOCKET_OFFSET + o.MEMP_NUM_NETCONN ≤ 2147483648)
    (hn : -2147483648 ≤ n ∧ n < 2147483648) (hm : -2147483648 ≤ m ∧ m < 2147483648)
    (hne : m ≠ n) (hgn : fdInRange o n = true) (kn b : Nat) (hkn : fdOffset o n = (kn : Int))
    (hb : p.fd_bits[kn / 8]? = some b) (v : Nat)
    (hv : ∀ l, l < 8 → l ≠ kn % 8 → (v % 256) &&& 2 ^ l = b &&& 2 ^ l) :
    ZTS_FD_ISSET o m { fd_bits := p.fd_bits.set (kn / 8) (v % 256) } = ZTS_FD_ISSET o m p := by
  have hq : fd_set.WellFormed o { fd_bits := p.fd_bits.set (kn / 8) (v % 256) } := by
    simp only [fd_set.WellFormed, List.length_set]; exact hwf
  cases hgm : fdInRange o m with
  | false =>
    rw [(fd_macros_out_of_range o m _ hgm).2.2, (fd_macros_out_of_range o m p hgm).2.2]
  | true =>
    obtain ⟨km, bm, hkm, _, hsize, hbm, _, _, hisset⟩ := fd_macros_in_range o m p hwf hgm
    have hrn := ((fdInRange_iff o n).trans (fdOffset_of_int o n hfit hn)).mp hgn
    have hrm := ((fdInRange_iff o m).trans (fdOffset_of_int o m hfit hm)).mp hgm
    have hon := fdOffset_eq o n hfit hrn
    have hom := fdOffset_eq o m hfit hrm
    have hkne : km ≠ kn := by
      intro heq
      apply hne
      have : (km : Int) = (kn : Int) := by rw [heq]
      rw [← hkm, ← hkn, hon, hom] at this
      omega
    have hlen : kn / 8 < p.fd_bits.length := by
      rcases Nat.lt_or_ge (kn / 8) p.fd_bits.length with h | h
      · exact h
      · rw [List.getElem?_eq_none h] at hb
        exact absurd hb (by simp)
    rw [hisset]
    by_cases hbyte : km / 8 = kn / 8
    · have hbit : km % 8 ≠ kn % 8 := by omega
      have hbb : bm = b := by
        rw [hbyte, hb] at hbm
        exact (Option.some.inj hbm).symm
      rw [isset_of_byte o m _ hq hgm km hkm (v % 256)
        (by rw [hbyte]; exact List.getElem?_set_self hlen)]
      rw [hv (km % 8) (Nat.mod_lt _ (by decide)) hbit, hbb]
    · rw [isset_of_byte o m _ hq hgm km hkm bm
        (by rw [List.getElem?_set_ne (fun h => hbyte h.symm)]; exact hbm)]

/-- C16: ZTS_FD_SET(n, p) and ZTS_FD_CLR(n, p) change the membership of n
only: on a set of the declared size, for all int descriptors n and m with
m != n (in range or not), ZTS_FD_ISSET(m, p) has the same value before and
after the operation on n. -/
theorem fd_set_and_clr_frame (o : LwipOpts) (n m : Int) (p : fd_set)
    (hwf : p.WellFormed o)
    (hfit : o.LWIP_SOCKET_OFFSET + o.MEMP_NUM_NETCONN ≤ 2147483648)
    (hn : -2147483648 ≤ n ∧ n < 2147483648) (hm : -2147483648 ≤ m ∧ m < 2147483648)
    (hne : m ≠ n) :
    (∃ q, ZTS_FD_SET o n p = some q ∧ ZTS_FD_ISSET o m q = ZTS_FD_ISSET o m p) ∧
    (∃ q, ZTS_FD_CLR o n p = some q ∧ ZTS_FD_ISSET o m q = ZTS_FD_ISSET o m p) := by
  cases hgn : fdInRange o n with
  | false =>
    obtain ⟨h1, h2, _⟩ := fd_macros_out_of_range o n p hgn
    exact ⟨⟨p, h1, rfl⟩, ⟨p, h2, rfl⟩⟩
  | true =>
    obtain ⟨kn, b, hkn, _, _, hb, hset, hclr, _⟩ := fd_macros_in_range o n p hwf hgn
    refine ⟨⟨_, hset, ?_⟩, ⟨_, hclr, ?_⟩⟩
    · exact isset_frame o n m p hwf hfit hn hm hne hgn kn b hkn hb (b ||| 2 ^ (kn % 8))
        (fun l hl hlne => and_other_bit_of_or b (kn % 8) l hl hlne)
    · exact isset_frame o n m p hwf hfit hn hm hne hgn kn b hkn hb (Nat.ldiff b (2 ^ (kn % 8)))
        (fun l hl hlne => and_other_bit_of_ldiff b (kn % 8) l hl hlne)

/-- C17, amended: ZTS_FD_ZERO yields the empty descriptor set for descriptor
arguments of type int: for every set p and every int n, in range or not,
ZTS_FD_ISSET(n, p) is 0 after ZTS_FD_ZERO(p), and the zeroed set has the
declared size and only zero bytes. The cast `(int)(n)` of the guard is the
identity on such n. -/
theorem fd_isset_after_zero (o : LwipOpts) (n : Int) (p : fd_set)
    (hn : -2147483648 ≤ n ∧ n < 2147483648) :
    ZTS_FD_ISSET o n (ZTS_FD_ZERO o p) = some 0 ∧ (ZTS_FD_ZERO o p).WellFormed o ∧
    (∀ b ∈ (ZTS_FD_ZERO o p).fd_bits, b = 0) ∧
    toCInt n = n ∧
    ZTS_FD_ISSET_typed ArgType.int o n (ZTS_FD_ZERO o p) = some 0 := by
  have hq : (ZTS_FD_ZERO o p).WellFormed o := by
    simp [fd_set.WellFormed, ZTS_FD_ZERO]
  have hzero : ZTS_FD_ISSET o n (ZTS_FD_ZERO o p) = some 0 := by
    cases h : fdInRange o n with
    | false => exact (fd_macros_out_of_range o n _ h).2.2
    | true =>
      obtain ⟨k, b, _, _, hsize, hb, _, _, hisset⟩ := fd_macros_in_range o n _ hq h
      simp only [ZTS_FD_ZERO, List.getElem?_replicate_of_lt hsize, Option.some.injEq] at hb
      rw [hisset, ← hb, Nat.zero_and]
      rfl
  refine ⟨hzero, hq, ?_, ?_, hzero⟩
  · intro b hb
    simp only [ZTS_FD_ZERO] at hb
    exact (List.mem_replicate.mp hb).2
  · unfold toCInt
    omega

/-- After ZTS_FD_ZERO neither descriptor 13, which is in range, nor
descriptor -5, which is not, is in the set. -/
theorem fd_isset_after_zero_witness :
    ZTS_FD_ISSET sampleOpts 13 (ZTS_FD_ZERO sampleOpts sampleFdSet) = some 0 ∧
    ZTS_FD_ISSET sampleOpts (-5) (ZTS_FD_ZERO sampleOpts sampleFdSet) = some 0 ∧
    (ZTS_FD_ZERO sampleOpts sampleFdSet).fd_bits = [0, 0] :=
  ⟨(fd_isset_after_zero sampleOpts 13 sampleFdSet (by decide)).1,
   (fd_isset_after_zero sampleOpts (-5) sampleFdSet (by decide)).1,
   rfl⟩

/-- Descriptor 13 of the sample stack lies in byte 1 of the set; descriptor 15
is beyond the last descriptor, 14, and is left alone. -/
theorem fd_macros_stay_in_bounds_witness :
    sampleFdSet.WellFormed sampleOpts ∧
    (ZTS_FD_SET sampleOpts 13 sampleFdSet).isSome = true ∧
    fdByteIndex sampleOpts 13 = 1 ∧
    ZTS_FD_SET sampleOpts 15 sampleFdSet = some sampleFdSet ∧
    ZTS_FD_ISSET sampleOpts 15 sampleFdSet = some 0 :=
  ⟨rfl,
   (fd_macros_stay_in_bounds sampleOpts 13 sampleFdSet rfl (by decide) (by decide)).1.1,
   ((fd_macros_stay_in_bounds sampleOpts 13 sampleFdSet rfl (by decide) (by decide)).2.1
      (by decide)).2.1,
   ((fd_macros_stay_in_bounds sampleOpts 15 sampleFdSet rfl (by decide) (by decide)).2.2
      (by decide)).2.1,
   ((fd_macros_stay_in_bounds sampleOpts 15 sampleFdSet rfl (by decide) (by decide)).2.2
      (by decide)).2.2.2⟩

/-- Descriptor 13 has offset 10: after ZTS_FD_SET the test yields 1 << 2, after
ZTS_FD_CLR it yields 0. -/
theorem fd_isset_after_set_and_clr_witness :
    (∃ q, ZTS_FD_SET sampleOpts 13 sampleFdSet = some q ∧ q.WellFormed sampleOpts ∧
      ZTS_FD_ISSET sampleOpts 13 q = some 4) ∧
    (∃ q, ZTS_FD_CLR sampleOpts 13 sampleFdSet = some q ∧ q.WellFormed sampleOpts ∧
      ZTS_FD_ISSET sampleOpts 13 q = some 0) :=
  ⟨(fd_isset_after_set_and_clr sampleOpts 13 sampleFdSet rfl (by decide) (by decide)).1.imp
      (fun _ h => ⟨h.1, h.2.1, h.2.2.1⟩),
   (fd_isset_after_set_and_clr sampleOpts 13 sampleFdSet rfl (by decide) (by decide)).2⟩

/-- Setting or clearing descriptor 13 does not change the test of descriptor
10, which is in the set. -/
theorem fd_set_and_clr_frame_witness :
    ZTS_FD_ISSET sampleOpts 10 sampleFdSet = some 128 ∧
    (∃ q, ZTS_FD_SET sampleOpts 13 sampleFdSet = some q ∧
      ZTS_FD_ISSET sampleOpts 10 q = ZTS_FD_ISSET sampleOpts 10 sampleFdSet) ∧
    (∃ q, ZTS_FD_CLR sampleOpts 13 sampleFdSet = some q ∧
      ZTS_FD_ISSET sampleOpts 10 q = ZTS_FD_ISSET sampleOpts 10 sampleFdSet) :=
  ⟨by decide,
   (fd_set_and_clr_frame sampleOpts 13 10 sampleFdSet rfl (by decide) (by decide) (by decide)
      (by decide)).1,
   (fd_set_and_clr_frame sampleOpts 13 10 sampleFdSet rfl (by decide) (by decide) (by decide)
      (by decide)).2⟩

/-! ## Descriptor arguments wider than int -/

/-- For an argument of type int the typed macros are the macros above. -/
theorem fd_macros_typed_int (o : LwipOpts) (n : Int) (p : fd_set) :
    ZTS_FD_SET_typed ArgType.int o n p = ZTS_FD_SET o n p ∧
    ZTS_FD_CLR_typed ArgType.int o n p = ZTS_FD_CLR o n p ∧
    ZTS_FD_ISSET_typed ArgType.int o n p = ZTS_FD_ISSET o n p :=
  ⟨rfl, rfl, rfl⟩

/-- For a descriptor in the range of the stack the offset is the same
whatever the type of the argument. -/
theorem fdOffsetTyped_in_range (t : ArgType) (o : LwipOpts) (n : Int)
    (hfit : o.LWIP_SOCKET_OFFSET + o.MEMP_NUM_NETCONN ≤ 2147483648)
    (hr : 0 ≤ n - (o.LWIP_SOCKET_OFFSET : Int) ∧
      n - (o.LWIP_SOCKET_OFFSET : Int) < (o.MEMP_NUM_NETCONN : Int)) :
    fdOffsetTyped t o n = n - (o.LWIP_SOCKET_OFFSET : Int) ∧
    fdInRangeTyped t o n = true := by
  have hoff : fdOffsetTyped t o n = n - (o.LWIP_SOCKET_OFFSET : Int) := by
    cases t
    · simp only [fdOffsetTyped, ArgType.convert, toCInt]
      omega
    · simp only [fdOffsetTyped, ArgType.convert, toCLongLong]
      omega
  refine ⟨hoff, ?_⟩
  simp only [fdInRangeTyped, hoff, Bool.and_eq_true, decide_eq_true_eq, toCInt]
  omega

/-- C14, as stated, fails: the macros take a descriptor argument of any
integer type, and for the long long n = -4294967293 with LWIP_SOCKET_OFFSET =
3 and MEMP_NUM_NETCONN = 12, which is not a descriptor of the stack
(n - 3 = -4294967296), both halves of the guard hold (n - 3 < 12 in 64 bits,
and (int)n - 3 = 0), so ZTS_FD_SET, ZTS_FD_CLR and ZTS_FD_ISSET access
fd_bits[-536870912], outside the 2 bytes of the set. -/
theorem fd_macros_long_long_out_of_bounds :
    sampleFdSet.WellFormed sampleOpts ∧
    ¬ (0 ≤ (-4294967293 : Int) - (sampleOpts.LWIP_SOCKET_OFFSET : Int) ∧
      (-4294967293 : Int) - (sampleOpts.LWIP_SOCKET_OFFSET : Int) <
        (sampleOpts.MEMP_NUM_NETCONN : Int)) ∧
    toCLongLong (-4294967293) = -4294967293 ∧
    fdInRangeTyped ArgType.longlong sampleOpts (-4294967293) = true ∧
    fdByteIndexTyped ArgType.longlong sampleOpts (-4294967293) = -536870912 ∧
    sampleFdSet.read (-536870912) = none ∧
    ZTS_FD_SET_typed ArgType.longlong sampleOpts (-4294967293) sampleFdSet = none ∧
    ZTS_FD_CLR_typed ArgType.longlong sampleOpts (-4294967293) sampleFdSet = none ∧
    ZTS_FD_ISSET_typed ArgType.longlong sampleOpts (-4294967293) sampleFdSet = none := by
  refine ⟨rfl, by decide, by decide, by decide, by decide, by decide, by decide, by decide,
    by decide⟩

/-- C17, as stated, fails: after ZTS_FD_ZERO the test ZTS_FD_ISSET(n, p) of
the long long n = -4294967293 (LWIP_SOCKET_OFFSET = 3, MEMP_NUM_NETCONN = 12)
does not yield 0: both halves of the guard hold and the macro reads
fd_bits[-536870912], outside the set. -/
theorem fd_isset_after_zero_long_long_out_of_bounds :
    (ZTS_FD_ZERO sampleOpts sampleFdSet).fd_bits = [0, 0] ∧
    fdInRangeTyped ArgType.longlong sampleOpts (-4294967293) = true ∧
    (ZTS_FD_ZERO sampleOpts sampleFdSet).read
      (fdByteIndexTyped ArgType.longlong sampleOpts (-4294967293)) = none ∧
    ZTS_FD_ISSET_typed ArgType.longlong sampleOpts (-4294967293)
      (ZTS_FD_ZERO sampleOpts sampleFdSet) ≠ some 0 := by
  refine ⟨rfl, by decide, by decide, by decide⟩

/-! ## ioctl command encoding -/

/-- A command word whose fields do not overlap is the sum of its fields. -/
theorem ioc_word_eq_sum (dir x y s : Nat) (hdir : dir = 30 ∨ dir = 31) (hx : x < 256)
    (hy : y < 256) :
    2 ^ dir ||| ((s &&& ZTS_IOCPARM_MASK) <<< 16) ||| (x <<< 8) ||| y =
      2 ^ dir + (s % 128) * 65536 + x * 256 + y := by
  have hmask : s &&& ZTS_IOCPARM_MASK = s % 128 := Nat.and_pow_two_sub_one_eq_mod s 7
  have hs : s % 128 < 128 := Nat.mod_lt _ (by decide)
  rw [hmask, Nat.or_assoc, Nat.or_assoc, Nat.shiftLeft_eq, Nat.shiftLeft_eq]
  have h1 : x * 2 ^ 8 ||| y = x * 256 + y := by
    rw [Nat.mul_comm x (2 ^ 8), ← Nat.mul_add_lt_is_or (by simpa using hy) x]
    omega
  have h2 : (s % 128) * 2 ^ 16 ||| (x * 256 + y) = (s % 128) * 65536 + x * 256 + y := by
    rw [Nat.mul_comm (s % 128) (2 ^ 16),
      ← Nat.mul_add_lt_is_or (show x * 256 + y < 2 ^ 16 by omega) (s % 128)]
    omega
  have h3 : 2 ^ dir ||| ((s % 128) * 65536 + x * 256 + y) =
      2 ^ dir + (s % 128) * 65536 + x * 256 + y := by
    have hlt : (s % 128) * 65536 + x * 256 + y < 2 ^ dir := by
      rcases hdir with h | h <;> subst h <;> omega
    have := Nat.mul_add_lt_is_or hlt 1
    rw [Nat.mul_one] at this
    rw [← this]
    omega
  rw [h1, h2, h3]

theorem and_direction_bits (c : Nat) :
    c &&& (ZTS_IOC_IN ||| ZTS_IOC_OUT ||| ZTS_IOC_VOID) = ((c / 2 ^ 29) % 8) <<< 29 := by
  have hM : ZTS_IOC_IN ||| ZTS_IOC_OUT ||| ZTS_IOC_VOID = 7 <<< 29 := by decide
  have h7 : (7 : Nat) = 2 ^ 3 - 1 := rfl
  rw [hM]
  apply Nat.eq_of_testBit_eq
  intro i
  rw [Nat.testBit_and, Nat.testBit_shiftLeft, Nat.testBit_shiftLeft,
    ← Nat.shiftRight_eq_div_pow, show (8 : Nat) = 2 ^ 3 from rfl, Nat.testBit_mod_two_pow,
    Nat.testBit_shiftRight, h7, Nat.testBit_two_pow_sub_one]
  by_cases hi : 29 ≤ i
  · have : 29 + (i - 29) = i := by omega
    simp [hi, this, Bool.and_comm]
  · simp [hi]

/-- C18: for all x and y in 0..255 and every parameter size s, a command c
built by ZTS_IOR(x, y, t) or ZTS_IOW(x, y, t) with sizeof(t) = s decodes field
by field: c & 0xff = y, (c >> 8) & 0xff = x, (c >> 16) & ZTS_IOCPARM_MASK =
s & 0x7f, and c & (ZTS_IOC_IN | ZTS_IOC_OUT | ZTS_IOC_VOID) is ZTS_IOC_OUT for
ZTS_IOR and ZTS_IOC_IN for ZTS_IOW; hence ZTS_FIONREAD and ZTS_FIONBIO differ
whatever sizeof(unsigned long) is. -/
theorem ioctl_command_decodes (x y s : Nat) (hx : x < 256) (hy : y < 256) :
    (ZTS_IOR x y s &&& 0xff = y ∧ (ZTS_IOR x y s >>> 8) &&& 0xff = x ∧
      (ZTS_IOR x y s >>> 16) &&& ZTS_IOCPARM_MASK = s &&& 0x7f ∧
      ZTS_IOR x y s &&& (ZTS_IOC_IN ||| ZTS_IOC_OUT ||| ZTS_IOC_VOID) = ZTS_IOC_OUT) ∧
    (ZTS_IOW x y s &&& 0xff = y ∧ (ZTS_IOW x y s >>> 8) &&& 0xff = x ∧
      (ZTS_IOW x y s >>> 16) &&& ZTS_IOCPARM_MASK = s &&& 0x7f ∧
      ZTS_IOW x y s &&& (ZTS_IOC_IN ||| ZTS_IOC_OUT ||| ZTS_IOC_VOID) = ZTS_IOC_IN) ∧
    (∀ s1 s2 : Nat, ZTS_FIONREAD s1 ≠ ZTS_FIONBIO s2) := by
  have hff : ∀ c : Nat, c &&& 0xff = c % 256 := fun c => Nat.and_pow_two_sub_one_eq_mod c 8
  have hmask : ∀ c : Nat, c &&& ZTS_IOCPARM_MASK = c % 128 :=
    fun c => Nat.and_pow_two_sub_one_eq_mod c 7
  have h7f : ∀ c : Nat, c &&& 0x7f = c % 128 := fun c => Nat.and_pow_two_sub_one_eq_mod c 7
  have hs : s % 128 < 128 := Nat.mod_lt _ (by decide)
  have hR : ZTS_IOR x y s = 2 ^ 30 + (s % 128) * 65536 + x * 256 + y :=
    ioc_word_eq_sum 30 x y s (Or.inl rfl) hx hy
  have hW : ZTS_IOW x y s = 2 ^ 31 + (s % 128) * 65536 + x * 256 + y :=
    ioc_word_eq_sum 31 x y s (Or.inr rfl) hx hy
  refine ⟨⟨?_, ?_, ?_, ?_⟩, ⟨?_, ?_, ?_, ?_⟩, ?_⟩
  · rw [hff, hR]; omega
  · rw [hff, Nat.shiftRight_eq_div_pow, hR]; omega
  · rw [hmask, h7f, Nat.shiftRight_eq_div_pow, hR]; omega
  · rw [and_direction_bits, hR]
    have : (2 ^ 30 + (s % 128) * 65536 + x * 256 + y) / 2 ^ 29 % 8 = 2 := by omega
    rw [this]; rfl
  · rw [hff, hW]; omega
  · rw [hff, Nat.shiftRight_eq_div_pow, hW]; omega
  · rw [hmask, h7f, Nat.shiftRight_eq_div_pow, hW]; omega
  · rw [and_direction_bits, hW]
    have : (2 ^ 31 + (s % 128) * 65536 + x * 256 + y) / 2 ^ 29 % 8 = 4 := by omega
    rw [this]; rfl
  · intro s1 s2 heq
    have h1 : ZTS_FIONREAD s1 = 2 ^ 30 + (s1 % 128) * 65536 + 102 * 256 + 127 :=
      ioc_word_eq_sum 30 102 127 s1 (Or.inl rfl) (by decide) (by decide)
    have h2 : ZTS_FIONBIO s2 = 2 ^ 31 + (s2 % 128) * 65536 + 102 * 256 + 126 :=
      ioc_word_eq_sum 31 102 126 s2 (Or.inr rfl) (by decide) (by decide)
    rw [h1, h2] at heq
    omega

/-- The two commands for an `unsigned long` of 8 bytes, and of 4 bytes. -/
theorem ioctl_command_decodes_witness :
    ZTS_FIONREAD 8 = 0x4008667f ∧ ZTS_FIONBIO 8 = 0x8008667e ∧
    ZTS_FIONREAD 4 = 0x4004667f ∧ ZTS_FIONBIO 4 = 0x8004667e ∧
    ZTS_FIONREAD 8 &&& 0xff = 127 ∧ (ZTS_FIONREAD 8 >>> 8) &&& 0xff = Char.toNat 'f' ∧
    ZTS_FIONREAD 8 ≠ ZTS_FIONBIO 4 :=
  ⟨by decide, by decide, by decide, by decide,
   (ioctl_command_decodes (Char.toNat 'f') 127 8 (by decide) (by decide)).1.1,
   (ioctl_command_decodes (Char.toNat 'f') 127 8 (by decide) (by decide)).1.2.1,
   (ioctl_command_decodes (Char.toNat 'f') 127 8 (by decide) (by decide)).2.2 8 4⟩

end ZeroTier
